import Mathlib

/-!
# Demand-paged virtual memory simulator (`page_swap.c`)

A shallow embedding of `src/OSS16_Project2/src/page_swap.c`.

* The global `ps` becomes an explicit value of `page_swap_t` that every operation
  takes and returns.
* The two fixed-size arrays are total functions on `Nat`; only the indices below
  the capacities (512 frames, 2048 pages) model array cells.
* `unsigned char` / `unsigned int` fields are `Nat`; no arithmetic in the file can
  leave the range of its C type (the largest values formed are `2047 + 8`,
  `(b >> 1) | 128` with `b < 256`, and a count of at most eight bits).
* The back store library (`<back_store.h>`) is not part of the repository. It is a
  parameter: a record `BackStore W` of the three calls over an arbitrary world
  type `W`. Quantifying over `W`, the record and the starting world covers every
  pattern of succeeding and failing calls. `traced lib` is `lib` with a record of
  the calls it received; statements about which calls are made, and in which
  order, are statements about that record.
-/

namespace OSS16

/-! ## Constants -/

/-- Number of entries of the page table. -/
@[simp] def MAX_PAGE_TABLE_ENTRIES_SIZE : Nat := 2048

/-- Number of entries of the frame table. -/
@[simp] def MAX_PHYSICAL_MEMORY_SIZE : Nat := 512

/-- Period of the decay step, in clock ticks. -/
@[simp] def TIME_INTERVAL : Nat := 100

/-- Size in bytes of one block of data. -/
@[simp] def DATA_BLOCK_SIZE : Nat := 1024

/-- Helper `BS_PAGE_MAP(x) ((x) + 8)`: the back-store block of a page. -/
@[simp] def BS_PAGE_MAP (x : Nat) : Nat := x + 8

/-! ## Data model -/

/-- A block of bytes (`unsigned char [DATA_BLOCK_SIZE]`). -/
abbrev Block := List Nat

/-- An individual frame. -/
structure frame_t where
  page_table_idx : Nat
  data : Block
  access_tracking_byte : Nat
  access_bit : Nat
deriving DecidableEq, Repr

/-- An individual page. -/
structure page_t where
  frame_table_idx : Nat
  valid : Nat
deriving DecidableEq, Repr

/-- The array of frames, `entries[MAX_PHYSICAL_MEMORY_SIZE]`. -/
abbrev frame_table_t := Nat → frame_t

/-- The array of pages, `entries[MAX_PAGE_TABLE_ENTRIES_SIZE]`. -/
abbrev page_table_t := Nat → page_t

/-- All the structures in one structure; `bs` is the state of the back store. -/
structure page_swap_t (W : Type) where
  frame_table : frame_table_t
  page_table : page_table_t
  bs : W

/-- The policy that chooses the victim frame. -/
inductive SWAP_MODE where
  | ALRU
  | LFU
deriving DecidableEq, Repr

/-- The record returned for a resolved page fault. -/
structure page_request_result_t where
  page_requested : Nat
  frame_replaced : Nat
  page_replaced : Nat
deriving DecidableEq, Repr

/-! ## The back store library -/

/-- The three calls of the external back store library that the code uses, over a
world `W`. Each returns its success flag and the next world; `back_store_read`
also receives the destination buffer and returns what the buffer holds after
the call. -/
structure BackStore (W : Type) where
  back_store_request : W → Nat → Bool × W
  back_store_write : W → Nat → Block → Bool × W
  back_store_read : W → Nat → Block → Bool × Block × W

/-- One call of the back store library with its outcome. -/
inductive BsEvent where
  | request (block : Nat) (ok : Bool)
  | write (block : Nat) (data : Block) (ok : Bool)
  | read (block : Nat) (ok : Bool) (data : Block)
deriving DecidableEq, Repr

/-- Success flag of a recorded call. -/
def BsEvent.ok : BsEvent → Bool
  | .request _ ok => ok
  | .write _ _ ok => ok
  | .read _ ok _ => ok

/-- The same library, recording every call it receives (oldest first) next to
its world. -/
def traced {W : Type} (lib : BackStore W) : BackStore (W × List BsEvent) where
  back_store_request := fun wt block =>
    let r := lib.back_store_request wt.1 block
    (r.1, (r.2, wt.2 ++ [BsEvent.request block r.1]))
  back_store_write := fun wt block data =>
    let r := lib.back_store_write wt.1 block data
    (r.1, (r.2, wt.2 ++ [BsEvent.write block data r.1]))
  back_store_read := fun wt block buf =>
    let r := lib.back_store_read wt.1 block buf
    (r.1, r.2.1, (r.2.2, wt.2 ++ [BsEvent.read block r.1 r.2.1]))

/-- The state of a run against a recording library, without the record. -/
def forget_trace {W : Type} (ps : page_swap_t (W × List BsEvent)) : page_swap_t W :=
  { frame_table := ps.frame_table, page_table := ps.page_table, bs := ps.bs.1 }

/-- A back store in which every call succeeds and nothing is stored: a read
leaves the buffer as it is. -/
def nullStore : BackStore Unit where
  back_store_request := fun w _ => (true, w)
  back_store_write := fun w _ _ => (true, w)
  back_store_read := fun w _ buf => (true, buf, w)

/-- A back store that serves the blocks below `limit` only: a request or a write
always succeeds, a read of a block at or above `limit` fails. -/
def lowReadStore (limit : Nat) : BackStore Unit where
  back_store_request := fun w _ => (true, w)
  back_store_write := fun w _ _ => (true, w)
  back_store_read := fun w block buf => (decide (block < limit), buf, w)

/-! ## Back store wrappers -/

/-- Wrapper `read_from_back_store(data, page)`: `data` is never null here. -/
def read_from_back_store {W : Type} (lib : BackStore W) (w : W) (data : Block) (page : Nat) :
    Bool × Block × W :=
  if page < MAX_PAGE_TABLE_ENTRIES_SIZE then
    lib.back_store_read w (BS_PAGE_MAP page) data
  else
    (false, data, w)

/-- Wrapper `write_to_back_store(data, page)`: `data` is never null here. -/
def write_to_back_store {W : Type} (lib : BackStore W) (w : W) (data : Block) (page : Nat) :
    Bool × W :=
  if page < MAX_PAGE_TABLE_ENTRIES_SIZE then
    lib.back_store_write w (BS_PAGE_MAP page) data
  else
    (false, w)

/-! ## Victim selection -/

/-- Loop of `bit_count`: `value &= value - 1, count++` while `value != 0`. The
first argument bounds the number of iterations. -/
def bit_count_loop : Nat → Nat → Nat → Nat
  | 0, _, count => count
  | fuel + 1, value, count =>
    if value ≠ 0 then bit_count_loop fuel (value &&& (value - 1)) (count + 1) else count

/-- Helper `bit_count(value)`. Every iteration lowers `value`, so `value`
iterations are always enough. -/
def bit_count (value : Nat) : Nat := bit_count_loop value value 0

/-- Loop of `choose_alru_victim_frame` with `n` iterations left: `i` is the loop
counter, `fp` the index the pointer `frame` is at. -/
def alru_scan (entries : frame_table_t) : Nat → Nat → Nat → Nat → Nat → Nat
  | 0, _, _, _, victim_frame_idx => victim_frame_idx
  | n + 1, i, fp, min, victim_frame_idx =>
    if (entries fp).access_tracking_byte < min then
      alru_scan entries n (i + 1) (fp + 1) (entries fp).access_tracking_byte i
    else
      alru_scan entries n (i + 1) (fp + 1) min victim_frame_idx

/-- Function `choose_alru_victim_frame`: the loop runs for `i = 1 .. 511` with
`frame` starting at `entries[0]`. -/
def choose_alru_victim_frame (entries : frame_table_t) : Nat :=
  alru_scan entries (MAX_PHYSICAL_MEMORY_SIZE - 1) 1 0 (entries 0).access_tracking_byte 0

/-- Loop of `choose_lfu_victim_frame` with `n` iterations left. -/
def lfu_scan (entries : frame_table_t) : Nat → Nat → Nat → Nat → Nat → Nat
  | 0, _, _, _, victim_frame_idx => victim_frame_idx
  | n + 1, i, fp, min, victim_frame_idx =>
    if bit_count (entries fp).access_tracking_byte < min then
      lfu_scan entries n (i + 1) (fp + 1) (bit_count (entries fp).access_tracking_byte) i
    else
      lfu_scan entries n (i + 1) (fp + 1) min victim_frame_idx

/-- Function `choose_lfu_victim_frame`. -/
def choose_lfu_victim_frame (entries : frame_table_t) : Nat :=
  lfu_scan entries (MAX_PHYSICAL_MEMORY_SIZE - 1) 1 0
    (bit_count (entries 0).access_tracking_byte) 0

/-- The choice `if (mode == ALRU) .. else ..` of `page_swap`. -/
def choose_victim_frame (mode : SWAP_MODE) (entries : frame_table_t) : Nat :=
  match mode with
  | .ALRU => choose_alru_victim_frame entries
  | .LFU => choose_lfu_victim_frame entries

/-! ## Decay -/

/-- Body of the loop of `access_update` on one frame. -/
def decay_frame (frame : frame_t) : frame_t :=
  { frame with
    access_tracking_byte := (frame.access_tracking_byte >>> 1) ||| frame.access_bit
    access_bit := 0 }

/-- Loop of `access_update` with `n` iterations left, `frame` at index `i`. -/
def access_update_loop : Nat → Nat → frame_table_t → frame_table_t
  | 0, _, entries => entries
  | n + 1, i, entries =>
    access_update_loop n (i + 1) (Function.update entries i (decay_frame (entries i)))

/-- Function `access_update`. -/
def access_update (entries : frame_table_t) : frame_table_t :=
  access_update_loop MAX_PHYSICAL_MEMORY_SIZE 0 entries

/-! ## References -/

/-- End of `page_swap`, common to a hit and a resolved fault: set the access bit
of `frame` (at index `fidx`), then run the decay step on a decay tick. -/
def mark_and_decay (clock_time fidx : Nat) (entries : frame_table_t) : frame_table_t :=
  let marked := Function.update entries fidx { entries fidx with access_bit := 128 }
  if clock_time ≠ 0 ∧ clock_time % TIME_INTERVAL = 0 then access_update marked else marked

/-- Function `page_swap(mode, page_number, clock_time)`: the result (`none` for
`NULL`) and the next state. -/
def page_swap {W : Type} (lib : BackStore W) (mode : SWAP_MODE) (page_number clock_time : Nat)
    (ps : page_swap_t W) : Option page_request_result_t × page_swap_t W :=
  if page_number < MAX_PAGE_TABLE_ENTRIES_SIZE then
    let page := ps.page_table page_number
    if page.valid = 0 then
      let victim_frame_idx := choose_victim_frame mode ps.frame_table
      let frame := ps.frame_table victim_frame_idx
      let page_req_result : page_request_result_t :=
        { page_requested := page_number
          frame_replaced := victim_frame_idx
          page_replaced := frame.page_table_idx }
      match write_to_back_store lib ps.bs frame.data frame.page_table_idx with
      | (false, w1) => (none, { ps with bs := w1 })
      | (true, w1) =>
        match read_from_back_store lib w1 frame.data page_number with
        | (false, buf, w2) =>
          (none, { ps with
                   bs := w2
                   frame_table :=
                     Function.update ps.frame_table victim_frame_idx { frame with data := buf } })
        | (true, buf, w2) =>
          let pt1 := Function.update ps.page_table page_number
            { frame_table_idx := victim_frame_idx, valid := 1 }
          let pt2 := Function.update pt1 frame.page_table_idx
            { pt1 frame.page_table_idx with valid := 0 }
          let ft1 := Function.update ps.frame_table victim_frame_idx
            { frame with data := buf, page_table_idx := page_number }
          (some page_req_result,
            { frame_table := mark_and_decay clock_time victim_frame_idx ft1
              page_table := pt2
              bs := w2 })
    else
      (none, { ps with
               frame_table := mark_and_decay clock_time page.frame_table_idx ps.frame_table })
  else
    (none, ps)

/-- Function `approx_least_recently_used(page_number, clock_time)`. -/
def approx_least_recently_used {W : Type} (lib : BackStore W) (page_number clock_time : Nat)
    (ps : page_swap_t W) : Option page_request_result_t × page_swap_t W :=
  page_swap lib SWAP_MODE.ALRU page_number clock_time ps

/-- Function `least_frequently_used(page_number, clock_time)`. -/
def least_frequently_used {W : Type} (lib : BackStore W) (page_number clock_time : Nat)
    (ps : page_swap_t W) : Option page_request_result_t × page_swap_t W :=
  page_swap lib SWAP_MODE.LFU page_number clock_time ps

/-! ## Initialization -/

/-- The dummy data written to every block: `buffer[j] = j % 255`. -/
def placeholder : Block := (List.range 1024).map (fun j => j % 255)

/-- A frame after `memset(.., 0, ..)`. -/
def zero_frame : frame_t :=
  { page_table_idx := 0, data := List.replicate DATA_BLOCK_SIZE 0,
    access_tracking_byte := 0, access_bit := 0 }

/-- A page after `memset(.., 0, ..)`. -/
def zero_page : page_t := { frame_table_idx := 0, valid := 0 }

/-- First loop of the initialization with `n` iterations left: request block
`i + 8` and fill it with the dummy data. -/
def init_request_loop {W : Type} (lib : BackStore W) : Nat → Nat → W → Bool × W
  | 0, _, w => (true, w)
  | n + 1, i, w =>
    match lib.back_store_request w (i + 8) with
    | (false, w1) => (false, w1)
    | (true, w1) =>
      match write_to_back_store lib w1 placeholder i with
      | (false, w2) => (false, w2)
      | (true, w2) => init_request_loop lib n (i + 1) w2

/-- Second loop of the initialization with `n` iterations left: bind frame `i`
to page `i` and load its data. -/
def init_load_loop {W : Type} (lib : BackStore W) :
    Nat → Nat → page_swap_t W → Bool × page_swap_t W
  | 0, _, ps => (true, ps)
  | n + 1, i, ps =>
    let frame : frame_t :=
      { ps.frame_table i with
        page_table_idx := i
        access_bit := 128
        access_tracking_byte := 255 }
    match read_from_back_store lib ps.bs frame.data i with
    | (false, buf, w1) =>
      (false, { ps with
                bs := w1
                frame_table := Function.update ps.frame_table i { frame with data := buf } })
    | (true, buf, w1) =>
      init_load_loop lib n (i + 1)
        { frame_table := Function.update ps.frame_table i { frame with data := buf }
          page_table := Function.update ps.page_table i { frame_table_idx := i, valid := 1 }
          bs := w1 }

/-- The function that populates the frame table and the page table (its C name
is a reserved word here). `created` is the back store that `back_store_create`
returned; `ps` is the global before the call. -/
def initialize_tables {W : Type} (lib : BackStore W) (created : W) (ps : page_swap_t W) :
    Bool × page_swap_t W :=
  match init_request_loop lib MAX_PAGE_TABLE_ENTRIES_SIZE 0 created with
  | (false, w1) => (false, { ps with bs := w1 })
  | (true, w1) =>
    init_load_loop lib MAX_PHYSICAL_MEMORY_SIZE 0
      { frame_table := fun _ => zero_frame, page_table := fun _ => zero_page, bs := w1 }

/-- The eviction write of a fault under `mode`: the victim frame's data goes to
the block of the page that the frame owns. -/
def eviction_write {W : Type} (lib : BackStore W) (mode : SWAP_MODE) (ps : page_swap_t W) :
    Bool × W :=
  write_to_back_store lib ps.bs
    (ps.frame_table (choose_victim_frame mode ps.frame_table)).data
    (ps.frame_table (choose_victim_frame mode ps.frame_table)).page_table_idx

/-- The fault-in read that follows the eviction write: the block of
`page_number` is read into the victim frame's data. -/
def fault_in_read {W : Type} (lib : BackStore W) (mode : SWAP_MODE) (page_number : Nat)
    (ps : page_swap_t W) : Bool × Block × W :=
  read_from_back_store lib (eviction_write lib mode ps).2
    (ps.frame_table (choose_victim_frame mode ps.frame_table)).data page_number

/-- The global before any call: zero-filled static storage around a back store
state `w`. -/
def zero_state {W : Type} (w : W) : page_swap_t W :=
  { frame_table := fun _ => zero_frame, page_table := fun _ => zero_page, bs := w }

/-! ## The calls an initialization makes -/

/-- The calls of the first loop of a successful initialization from index `i`
for `n` iterations: block `k + 8` is requested, then written with the dummy
data, for `k = i, i + 1, ..`, every call succeeding. -/
def fill_events (i n : Nat) : List BsEvent :=
  (List.range' i n).flatMap
    (fun k => [BsEvent.request (k + 8) true, BsEvent.write (k + 8) placeholder true])

/-- The calls of the second loop of a successful initialization from index `i`
for `n` iterations: block `k + 8` is read, and the block obtained is the data
of frame `k` in `entries`. -/
def load_events (entries : frame_table_t) (i n : Nat) : List BsEvent :=
  (List.range' i n).map (fun k => BsEvent.read (k + 8) true (entries k).data)

/-- The calls an initialization can make: a request of one of the 2048 page
blocks, a write of the dummy data to one of them, or a read of one of the
first 512 page blocks. -/
def init_call : BsEvent → Prop
  | .request block _ => 8 ≤ block ∧ block < 2048 + 8
  | .write block data _ => 8 ≤ block ∧ block < 2048 + 8 ∧ data = placeholder
  | .read block _ _ => 8 ≤ block ∧ block < 512 + 8

instance : DecidablePred init_call := fun e => by
  cases e <;> unfold init_call <;> infer_instance

/-! ## Reachable states -/

/-- States the simulator can be in: after a successful initialization, then after
any number of references under either policy. Page numbers and clock values
range over all naturals, which covers every `uint16_t` and `size_t` argument. -/
inductive Reachable {W : Type} (lib : BackStore W) : page_swap_t W → Prop where
  | init (created : W) (ps : page_swap_t W) :
      (initialize_tables lib created ps).1 = true →
      Reachable lib (initialize_tables lib created ps).2
  | alru (page_number clock_time : Nat) (ps : page_swap_t W) :
      Reachable lib ps → Reachable lib (approx_least_recently_used lib page_number clock_time ps).2
  | lfu (page_number clock_time : Nat) (ps : page_swap_t W) :
      Reachable lib ps → Reachable lib (least_frequently_used lib page_number clock_time ps).2

/-- Consistency of the two tables: every resident page names the frame that owns
it, every frame is owned by a resident page that names it, and the stored
indices and bytes stay in range. -/
structure TablesInv {W : Type} (ps : page_swap_t W) : Prop where
  page_frame : ∀ p, p < 2048 → (ps.page_table p).valid ≠ 0 →
    (ps.frame_table (ps.page_table p).frame_table_idx).page_table_idx = p
  frame_page : ∀ f, f < 512 →
    (ps.frame_table f).page_table_idx < 2048 ∧
    (ps.page_table (ps.frame_table f).page_table_idx).valid ≠ 0 ∧
    (ps.page_table (ps.frame_table f).page_table_idx).frame_table_idx = f
  idx_lt : ∀ p, p < 2048 → (ps.page_table p).frame_table_idx < 512
  bit_enc : ∀ f, f < 512 →
    (ps.frame_table f).access_bit = 0 ∨ (ps.frame_table f).access_bit = 128
  byte_lt : ∀ f, f < 512 → (ps.frame_table f).access_tracking_byte < 256

/-- Number of valid (resident) pages of the page table. -/
def valid_count {W : Type} (ps : page_swap_t W) : Nat :=
  ((Finset.range MAX_PAGE_TABLE_ENTRIES_SIZE).filter
    (fun p => (ps.page_table p).valid ≠ 0)).card

/-- The state right after an initialization on the back store `nullStore`. -/
def bootState : page_swap_t Unit :=
  (initialize_tables nullStore ()
    { frame_table := fun _ => zero_frame, page_table := fun _ => zero_page, bs := () }).2

/-- The state right after an initialization on the back store `lowReadStore 520`,
which serves the 512 reads of the initialization and no read of a later block. -/
def lowBootState : page_swap_t Unit :=
  (initialize_tables (lowReadStore 520) ()
    { frame_table := fun _ => zero_frame, page_table := fun _ => zero_page, bs := () }).2

/-- The state after the initialization on `nullStore` and two references to the
resident page 0, at the decay ticks 100 and 200: frame 0 has tracking byte 255
and every other frame has 127. -/
def skewState : page_swap_t Unit :=
  (approx_least_recently_used nullStore 0 200
    (approx_least_recently_used nullStore 0 100 bootState).2).2

/-- A frame table with the tracking bytes of `skewState`: 255 in frame 0 and 127
in every other frame. -/
def skewTable : frame_table_t := fun i =>
  { page_table_idx := i, data := [], access_tracking_byte := if i = 0 then 255 else 127,
    access_bit := 0 }

/-! ## A back store that keeps what is written -/

/-- A back store that is a map from block id to block: a request always
succeeds, a write stores the block, a read returns the stored block. -/
def mapStore : BackStore (Nat → Block) where
  back_store_request := fun w _ => (true, w)
  back_store_write := fun w block data => (true, Function.update w block data)
  back_store_read := fun w block _ => (true, w block, w)

/-- One reference: the policy, the page number and the clock value. -/
structure reference where
  mode : SWAP_MODE
  page_number : Nat
  clock_time : Nat
deriving DecidableEq, Repr

/-- A sequence of references, served in order. -/
def run_refs {W : Type} (lib : BackStore W) : List reference → page_swap_t W → page_swap_t W
  | [], ps => ps
  | r :: rs, ps => run_refs lib rs (page_swap lib r.mode r.page_number r.clock_time ps).2

/-- The state right after an initialization on `mapStore`, started with every
block empty. -/
def mapBootState : page_swap_t (Nat → Block) :=
  (initialize_tables mapStore (fun _ => []) (zero_state (fun _ => []))).2

/-! ## Decay and bit counting: auxiliary definitions -/

/-- Function `access_update` as it acts on the global: it writes the frame table
only. -/
def access_update_global {W : Type} (ps : page_swap_t W) : page_swap_t W :=
  { ps with frame_table := access_update ps.frame_table }

/-- The step `value &= value - 1` of the loop of `bit_count`. -/
def clear_lowest (value : Nat) : Nat := value &&& (value - 1)

/-- Number of 1 bits among the eight bits of a byte. -/
def set_bits (v : Nat) : Nat := ((List.range 8).filter (fun i => v.testBit i)).length

/-- The score a policy gives a frame: the tracking byte itself under ALRU, its
number of set bits under LFU. -/
def score (mode : SWAP_MODE) (frame : frame_t) : Nat :=
  match mode with
  | .ALRU => frame.access_tracking_byte
  | .LFU => bit_count frame.access_tracking_byte

/-- The loop shared by the two selectors, over the scores `s` of the frames, with
`n` iterations left: iteration `i` tests the score at pointer index `fp`. -/
def victim_scan (s : Nat → Nat) : Nat → Nat → Nat → Nat → Nat → Nat
  | 0, _, _, _, victim_frame_idx => victim_frame_idx
  | n + 1, i, fp, min, victim_frame_idx =>
    if s fp < min then victim_scan s n (i + 1) (fp + 1) (s fp) i
    else victim_scan s n (i + 1) (fp + 1) min victim_frame_idx

/-! # Theorems -/

variable {W : Type}

/-! ## Victim selection: range -/

theorem alru_scan_lt (entries : frame_table_t) (bound : Nat) :
    ∀ (n i fp min victim : Nat), victim < bound → i + n ≤ bound →
      alru_scan entries n i fp min victim < bound := by
  intro n
  induction n with
  | zero => intro i fp min victim hv _; simpa [alru_scan] using hv
  | succ n ih =>
    intro i fp min victim hv hb
    unfold alru_scan
    split
    · exact ih _ _ _ _ (by omega) (by omega)
    · exact ih _ _ _ _ hv (by omega)

theorem lfu_scan_lt (entries : frame_table_t) (bound : Nat) :
    ∀ (n i fp min victim : Nat), victim < bound → i + n ≤ bound →
      lfu_scan entries n i fp min victim < bound := by
  intro n
  induction n with
  | zero => intro i fp min victim hv _; simpa [lfu_scan] using hv
  | succ n ih =>
    intro i fp min victim hv hb
    unfold lfu_scan
    split
    · exact ih _ _ _ _ (by omega) (by omega)
    · exact ih _ _ _ _ hv (by omega)

theorem choose_victim_frame_lt (mode : SWAP_MODE) (entries : frame_table_t) :
    choose_victim_frame mode entries < 512 := by
  cases mode
  · exact alru_scan_lt entries 512 _ _ _ _ _ (by norm_num) (by norm_num)
  · exact lfu_scan_lt entries 512 _ _ _ _ _ (by norm_num) (by norm_num)

/-! ## Decay: closed form -/

theorem access_update_loop_apply :
    ∀ (n i : Nat) (entries : frame_table_t) (j : Nat),
      access_update_loop n i entries j =
        if i ≤ j ∧ j < i + n then decay_frame (entries j) else entries j := by
  intro n
  induction n with
  | zero =>
    intro i entries j
    have h : ¬ (i ≤ j ∧ j < i + 0) := by omega
    rw [if_neg h, access_update_loop]
  | succ n ih =>
    intro i entries j
    rw [access_update_loop, ih]
    by_cases hj : j = i
    · subst hj
      simp
    · rw [Function.update_noteq hj]
      by_cases h1 : i + 1 ≤ j ∧ j < i + 1 + n
      · rw [if_pos h1, if_pos (by omega)]
      · rw [if_neg h1, if_neg (by omega)]

theorem access_update_apply (entries : frame_table_t) (j : Nat) :
    access_update entries j = if j < 512 then decay_frame (entries j) else entries j := by
  unfold access_update
  rw [access_update_loop_apply]
  simp

/-! ## The cases of `page_swap` -/

theorem page_swap_out_of_range (lib : BackStore W) (mode : SWAP_MODE) (page_number clock_time : Nat)
    (ps : page_swap_t W) (h : 2048 ≤ page_number) :
    page_swap lib mode page_number clock_time ps = (none, ps) := by
  unfold page_swap
  rw [if_neg (by simpa using h)]

theorem page_swap_hit (lib : BackStore W) (mode : SWAP_MODE) (page_number clock_time : Nat)
    (ps : page_swap_t W) (h : page_number < 2048) (hv : (ps.page_table page_number).valid ≠ 0) :
    page_swap lib mode page_number clock_time ps =
      (none, { ps with
               frame_table := mark_and_decay clock_time (ps.page_table page_number).frame_table_idx
                 ps.frame_table }) := by
  unfold page_swap
  rw [if_pos (by simpa using h)]
  simp only [if_neg hv]

theorem page_swap_write_failed (lib : BackStore W) (mode : SWAP_MODE) (page_number clock_time : Nat)
    (ps : page_swap_t W) (h : page_number < 2048) (hv : (ps.page_table page_number).valid = 0)
    (hw : (eviction_write lib mode ps).1 = false) :
    page_swap lib mode page_number clock_time ps =
      (none, { ps with bs := (eviction_write lib mode ps).2 }) := by
  unfold eviction_write at hw ⊢
  unfold page_swap
  rw [if_pos (by simpa using h)]
  simp only [if_pos hv]
  rcases hW : write_to_back_store lib ps.bs
        (ps.frame_table (choose_victim_frame mode ps.frame_table)).data
        (ps.frame_table (choose_victim_frame mode ps.frame_table)).page_table_idx with ⟨b, w1⟩
  rw [hW] at hw
  simp only at hw
  subst hw
  rfl

theorem page_swap_read_failed (lib : BackStore W) (mode : SWAP_MODE) (page_number clock_time : Nat)
    (ps : page_swap_t W) (h : page_number < 2048) (hv : (ps.page_table page_number).valid = 0)
    (hw : (eviction_write lib mode ps).1 = true)
    (hr : (fault_in_read lib mode page_number ps).1 = false) :
    page_swap lib mode page_number clock_time ps =
      (none, { ps with
        bs := (fault_in_read lib mode page_number ps).2.2
        frame_table := Function.update ps.frame_table (choose_victim_frame mode ps.frame_table)
          { ps.frame_table (choose_victim_frame mode ps.frame_table) with
            data := (fault_in_read lib mode page_number ps).2.1 } }) := by
  unfold fault_in_read at hr ⊢
  unfold eviction_write at hw hr ⊢
  unfold page_swap
  rw [if_pos (by simpa using h)]
  simp only [if_pos hv]
  rcases hW : write_to_back_store lib ps.bs
        (ps.frame_table (choose_victim_frame mode ps.frame_table)).data
        (ps.frame_table (choose_victim_frame mode ps.frame_table)).page_table_idx with ⟨b, w1⟩
  rw [hW] at hw hr
  simp only at hw hr
  subst hw
  rcases hR : read_from_back_store lib w1
        (ps.frame_table (choose_victim_frame mode ps.frame_table)).data page_number with ⟨b, buf, w2⟩
  rw [hR] at hr
  simp only at hr
  subst hr
  simp only [hR]

theorem page_swap_fault (lib : BackStore W) (mode : SWAP_MODE) (page_number clock_time : Nat)
    (ps : page_swap_t W) (h : page_number < 2048) (hv : (ps.page_table page_number).valid = 0)
    (hw : (eviction_write lib mode ps).1 = true)
    (hr : (fault_in_read lib mode page_number ps).1 = true) :
    page_swap lib mode page_number clock_time ps =
      (some { page_requested := page_number
              frame_replaced := choose_victim_frame mode ps.frame_table
              page_replaced :=
                (ps.frame_table (choose_victim_frame mode ps.frame_table)).page_table_idx },
       { frame_table := mark_and_decay clock_time (choose_victim_frame mode ps.frame_table)
           (Function.update ps.frame_table (choose_victim_frame mode ps.frame_table)
             { ps.frame_table (choose_victim_frame mode ps.frame_table) with
               data := (fault_in_read lib mode page_number ps).2.1
               page_table_idx := page_number })
         page_table :=
           Function.update
             (Function.update ps.page_table page_number
               { frame_table_idx := choose_victim_frame mode ps.frame_table, valid := 1 })
             (ps.frame_table (choose_victim_frame mode ps.frame_table)).page_table_idx
             { (Function.update ps.page_table page_number
                 { frame_table_idx := choose_victim_frame mode ps.frame_table, valid := 1 })
                 (ps.frame_table (choose_victim_frame mode ps.frame_table)).page_table_idx with
               valid := 0 }
         bs := (fault_in_read lib mode page_number ps).2.2 }) := by
  unfold fault_in_read at hr ⊢
  unfold eviction_write at hw hr ⊢
  unfold page_swap
  rw [if_pos (by simpa using h)]
  simp only [if_pos hv]
  rcases hW : write_to_back_store lib ps.bs
        (ps.frame_table (choose_victim_frame mode ps.frame_table)).data
        (ps.frame_table (choose_victim_frame mode ps.frame_table)).page_table_idx with ⟨b, w1⟩
  rw [hW] at hw hr
  simp only at hw hr
  subst hw
  rcases hR : read_from_back_store lib w1
        (ps.frame_table (choose_victim_frame mode ps.frame_table)).data page_number with ⟨b, buf, w2⟩
  rw [hR] at hr
  simp only at hr
  subst hr
  simp only [hR]

/-- A successful eviction write has passed the page-range check. -/
theorem eviction_write_owner_lt (lib : BackStore W) (mode : SWAP_MODE) (ps : page_swap_t W)
    (hw : (eviction_write lib mode ps).1 = true) :
    (ps.frame_table (choose_victim_frame mode ps.frame_table)).page_table_idx < 2048 := by
  unfold eviction_write write_to_back_store at hw
  by_contra hlt
  rw [if_neg (by simpa using hlt)] at hw
  exact Bool.false_ne_true hw

/-! ## Marking and decay -/

@[simp] theorem decay_frame_page_table_idx (frame : frame_t) :
    (decay_frame frame).page_table_idx = frame.page_table_idx := rfl

@[simp] theorem decay_frame_data (frame : frame_t) : (decay_frame frame).data = frame.data := rfl

@[simp] theorem decay_frame_access_bit (frame : frame_t) : (decay_frame frame).access_bit = 0 := rfl

@[simp] theorem decay_frame_byte (frame : frame_t) :
    (decay_frame frame).access_tracking_byte =
      (frame.access_tracking_byte >>> 1) ||| frame.access_bit := rfl

theorem mark_and_decay_no_tick (clock_time fidx : Nat) (entries : frame_table_t)
    (h : clock_time = 0 ∨ clock_time % 100 ≠ 0) :
    mark_and_decay clock_time fidx entries =
      Function.update entries fidx { entries fidx with access_bit := 128 } := by
  unfold mark_and_decay
  have : ¬ (clock_time ≠ 0 ∧ clock_time % TIME_INTERVAL = 0) := by
    simp only [TIME_INTERVAL]; rcases h with h | h <;> simp [h]
  simp only [if_neg this]

theorem mark_and_decay_tick (clock_time fidx : Nat) (entries : frame_table_t)
    (h : clock_time ≠ 0 ∧ clock_time % 100 = 0) :
    mark_and_decay clock_time fidx entries =
      access_update (Function.update entries fidx { entries fidx with access_bit := 128 }) := by
  unfold mark_and_decay
  have : clock_time ≠ 0 ∧ clock_time % TIME_INTERVAL = 0 := by simpa using h
  simp only [if_pos this]

theorem mark_and_decay_page_table_idx (clock_time fidx : Nat) (entries : frame_table_t) (j : Nat) :
    (mark_and_decay clock_time fidx entries j).page_table_idx = (entries j).page_table_idx := by
  unfold mark_and_decay
  split
  · rw [access_update_apply]
    by_cases hj : j = fidx
    · subst hj; split <;> simp
    · split <;> simp [Function.update_noteq hj]
  · by_cases hj : j = fidx
    · subst hj; simp
    · simp [Function.update_noteq hj]

theorem mark_and_decay_data (clock_time fidx : Nat) (entries : frame_table_t) (j : Nat) :
    (mark_and_decay clock_time fidx entries j).data = (entries j).data := by
  unfold mark_and_decay
  split
  · rw [access_update_apply]
    by_cases hj : j = fidx
    · subst hj; split <;> simp
    · split <;> simp [Function.update_noteq hj]
  · by_cases hj : j = fidx
    · subst hj; simp
    · simp [Function.update_noteq hj]

theorem shift_or_lt (b a : Nat) (hb : b < 256) (ha : a = 0 ∨ a = 128) :
    (b >>> 1) ||| a < 256 := by
  have h1 : b >>> 1 < 2 ^ 8 := by
    rw [Nat.shiftRight_eq_div_pow]; omega
  have h2 : a < 2 ^ 8 := by rcases ha with h | h <;> omega
  exact Nat.or_lt_two_pow h1 h2

theorem mark_and_decay_access_bit (clock_time fidx : Nat) (entries : frame_table_t) (j : Nat)
    (hj : j < 512) (h : (entries j).access_bit = 0 ∨ (entries j).access_bit = 128) :
    (mark_and_decay clock_time fidx entries j).access_bit = 0 ∨
      (mark_and_decay clock_time fidx entries j).access_bit = 128 := by
  unfold mark_and_decay
  split
  · rw [access_update_apply, if_pos hj]; simp
  · by_cases hf : j = fidx
    · subst hf; simp
    · simpa [Function.update_noteq hf] using h

theorem mark_and_decay_byte_lt (clock_time fidx : Nat) (entries : frame_table_t) (j : Nat)
    (hj : j < 512) (hb : (entries j).access_tracking_byte < 256)
    (h : (entries j).access_bit = 0 ∨ (entries j).access_bit = 128) :
    (mark_and_decay clock_time fidx entries j).access_tracking_byte < 256 := by
  unfold mark_and_decay
  split
  · rw [access_update_apply, if_pos hj, decay_frame_byte]
    by_cases hf : j = fidx
    · subst hf
      simp only [Function.update_same]
      exact shift_or_lt _ _ hb (Or.inr rfl)
    · simp only [Function.update_noteq hf]
      exact shift_or_lt _ _ hb h
  · by_cases hf : j = fidx
    · subst hf; simpa using hb
    · simpa [Function.update_noteq hf] using hb

/-! ## Initialization: the state it leaves -/

theorem init_load_loop_state (lib : BackStore W) :
    ∀ (n i : Nat) (ps : page_swap_t W), (init_load_loop lib n i ps).1 = true →
      (∀ j, i ≤ j → j < i + n →
        ((init_load_loop lib n i ps).2.frame_table j).page_table_idx = j ∧
        ((init_load_loop lib n i ps).2.frame_table j).access_bit = 128 ∧
        ((init_load_loop lib n i ps).2.frame_table j).access_tracking_byte = 255 ∧
        (init_load_loop lib n i ps).2.page_table j = { frame_table_idx := j, valid := 1 }) ∧
      (∀ j, ¬ (i ≤ j ∧ j < i + n) →
        (init_load_loop lib n i ps).2.frame_table j = ps.frame_table j ∧
        (init_load_loop lib n i ps).2.page_table j = ps.page_table j) := by
  intro n
  induction n with
  | zero =>
    intro i ps _
    refine ⟨fun j h1 h2 => by omega, fun j _ => ?_⟩
    simp [init_load_loop]
  | succ n ih =>
    intro i ps h
    unfold init_load_loop at h ⊢
    simp only at h ⊢
    rcases hR : read_from_back_store lib ps.bs (ps.frame_table i).data i with ⟨b, buf, w1⟩
    rw [hR] at h
    cases b
    · simp at h
    · simp only at h ⊢
      obtain ⟨ih1, ih2⟩ := ih (i + 1) _ h
      refine ⟨fun j h1 h2 => ?_, fun j hj => ?_⟩
      · by_cases hji : j = i
        · subst hji
          obtain ⟨e1, e2⟩ := ih2 j (by omega)
          rw [e1, e2]
          simp
        · exact ih1 j (by omega) (by omega)
      · obtain ⟨e1, e2⟩ := ih2 j (by omega)
        have hji : j ≠ i := by omega
        rw [e1, e2]
        simp [Function.update_noteq hji]

theorem initialize_tables_load (lib : BackStore W) (created : W) (ps : page_swap_t W)
    (h : (initialize_tables lib created ps).1 = true) :
    ∃ w1, (init_request_loop lib MAX_PAGE_TABLE_ENTRIES_SIZE 0 created) = (true, w1) ∧
      initialize_tables lib created ps =
        init_load_loop lib MAX_PHYSICAL_MEMORY_SIZE 0
          { frame_table := fun _ => zero_frame, page_table := fun _ => zero_page, bs := w1 } := by
  unfold initialize_tables at h ⊢
  rcases hQ : init_request_loop lib MAX_PAGE_TABLE_ENTRIES_SIZE 0 created with ⟨b, w1⟩
  rw [hQ] at h
  cases b
  · simp at h
  · exact ⟨w1, rfl, rfl⟩

theorem initialize_tables_state (lib : BackStore W) (created : W) (ps : page_swap_t W)
    (h : (initialize_tables lib created ps).1 = true) :
    (∀ j, j < 512 →
      ((initialize_tables lib created ps).2.frame_table j).page_table_idx = j ∧
      ((initialize_tables lib created ps).2.frame_table j).access_bit = 128 ∧
      ((initialize_tables lib created ps).2.frame_table j).access_tracking_byte = 255 ∧
      (initialize_tables lib created ps).2.page_table j = { frame_table_idx := j, valid := 1 }) ∧
    (∀ j, 512 ≤ j → (initialize_tables lib created ps).2.page_table j = zero_page) := by
  obtain ⟨w1, _, e⟩ := initialize_tables_load lib created ps h
  rw [e] at h ⊢
  obtain ⟨h1, h2⟩ := init_load_loop_state lib _ _ _ h
  refine ⟨fun j hj => h1 j (Nat.zero_le j) (by simpa using hj), fun j hj => ?_⟩
  exact (h2 j (by simp; omega)).2

theorem initialize_tables_inv (lib : BackStore W) (created : W) (ps : page_swap_t W)
    (h : (initialize_tables lib created ps).1 = true) :
    TablesInv (initialize_tables lib created ps).2 := by
  obtain ⟨h1, h2⟩ := initialize_tables_state lib created ps h
  have hpage : ∀ p, ((initialize_tables lib created ps).2.page_table p).valid ≠ 0 → p < 512 := by
    intro p hv
    by_contra hp
    rw [h2 p (by omega)] at hv
    exact hv rfl
  constructor
  · intro p _ hv
    have hp := hpage p hv
    obtain ⟨e1, _, _, e4⟩ := h1 p hp
    rw [e4]
    exact e1
  · intro f hf
    obtain ⟨e1, _, _, e4⟩ := h1 f hf
    rw [e1, e4]
    exact ⟨by omega, by simp, rfl⟩
  · intro p _
    by_cases hp : p < 512
    · rw [(h1 p hp).2.2.2]; exact hp
    · rw [h2 p (by omega)]; simp [zero_page]
  · intro f hf
    exact Or.inr (h1 f hf).2.1
  · intro f hf
    rw [(h1 f hf).2.2.1]; norm_num

/-! ## References keep the tables consistent -/

theorem TablesInv.mark (ps : page_swap_t W) (hI : TablesInv ps) (clock_time fidx : Nat) :
    TablesInv { ps with frame_table := mark_and_decay clock_time fidx ps.frame_table } := by
  constructor
  · intro p hp hv
    simp only [mark_and_decay_page_table_idx]
    exact hI.page_frame p hp hv
  · intro f hf
    simp only [mark_and_decay_page_table_idx]
    exact hI.frame_page f hf
  · exact hI.idx_lt
  · intro f hf
    exact mark_and_decay_access_bit _ _ _ _ hf (hI.bit_enc f hf)
  · intro f hf
    exact mark_and_decay_byte_lt _ _ _ _ hf (hI.byte_lt f hf) (hI.bit_enc f hf)

theorem TablesInv.set_bs {W' : Type} (ps : page_swap_t W) (hI : TablesInv ps) (w : W') :
    TablesInv ({ frame_table := ps.frame_table, page_table := ps.page_table, bs := w } :
      page_swap_t W') :=
  ⟨hI.page_frame, hI.frame_page, hI.idx_lt, hI.bit_enc, hI.byte_lt⟩

theorem TablesInv.set_data {W' : Type} (ps : page_swap_t W) (hI : TablesInv ps) (v : Nat)
    (buf : Block) (w : W') :
    TablesInv ({ frame_table := Function.update ps.frame_table v { ps.frame_table v with data := buf }
                 page_table := ps.page_table, bs := w } : page_swap_t W') := by
  have key : ∀ f, (Function.update ps.frame_table v { ps.frame_table v with data := buf } f).page_table_idx
        = (ps.frame_table f).page_table_idx ∧
      (Function.update ps.frame_table v { ps.frame_table v with data := buf } f).access_bit
        = (ps.frame_table f).access_bit ∧
      (Function.update ps.frame_table v { ps.frame_table v with data := buf } f).access_tracking_byte
        = (ps.frame_table f).access_tracking_byte := by
    intro f
    by_cases hf : f = v
    · subst hf; simp
    · simp [Function.update_noteq hf]
  constructor
  · intro p hp hv
    simp only [(key _).1]
    exact hI.page_frame p hp hv
  · intro f hf
    simp only [(key _).1]
    exact hI.frame_page f hf
  · exact hI.idx_lt
  · intro f hf
    simp only [(key _).2.1]
    exact hI.bit_enc f hf
  · intro f hf
    simp only [(key _).2.2]
    exact hI.byte_lt f hf

theorem TablesInv.bind (ps : page_swap_t W) (hI : TablesInv ps) (p v : Nat) (buf : Block) (w : W)
    (hp : p < 2048) (hv : (ps.page_table p).valid = 0) (hlt : v < 512) :
    TablesInv
      ({ frame_table := Function.update ps.frame_table v
           { ps.frame_table v with data := buf, page_table_idx := p }
         page_table :=
           Function.update
             (Function.update ps.page_table p { frame_table_idx := v, valid := 1 })
             (ps.frame_table v).page_table_idx
             { (Function.update ps.page_table p { frame_table_idx := v, valid := 1 })
                 (ps.frame_table v).page_table_idx with valid := 0 }
         bs := w } : page_swap_t W) := by
  obtain ⟨hq, hqv, hqf⟩ := hI.frame_page v hlt
  have hqp : (ps.frame_table v).page_table_idx ≠ p := by
    intro e; rw [e] at hqv; exact hqv hv
  constructor
  · intro r hr hrv
    simp only [Function.update_apply] at hrv ⊢
    by_cases h1 : r = (ps.frame_table v).page_table_idx
    · simp [h1] at hrv
    · simp only [if_neg h1] at hrv ⊢
      by_cases h2 : r = p
      · simp [h2]
      · simp only [if_neg h2] at hrv ⊢
        have e := hI.page_frame r hr hrv
        have hne : (ps.page_table r).frame_table_idx ≠ v := by
          intro e2; rw [e2] at e; exact h1 e.symm
        simp only [if_neg hne]
        exact e
  · intro f hf
    by_cases h1 : f = v
    · subst h1
      simp only [Function.update_same]
      refine ⟨hp, ?_, ?_⟩
      · simp [Function.update_apply, Ne.symm hqp]
      · simp [Function.update_apply, Ne.symm hqp]
    · obtain ⟨hr, hrv, hrf⟩ := hI.frame_page f hf
      have hne1 : (ps.frame_table f).page_table_idx ≠ (ps.frame_table v).page_table_idx := by
        intro e; rw [e, hqf] at hrf; exact h1 hrf.symm
      have hne2 : (ps.frame_table f).page_table_idx ≠ p := by
        intro e; rw [e] at hrv; exact hrv hv
      simp only [Function.update_apply, if_neg h1, if_neg hne1, if_neg hne2]
      exact ⟨hr, hrv, hrf⟩
  · intro r hr
    simp only [Function.update_apply]
    by_cases h1 : r = (ps.frame_table v).page_table_idx
    · simp only [if_pos h1, if_neg hqp]
      exact hI.idx_lt _ hq
    · simp only [if_neg h1]
      by_cases h2 : r = p
      · simp only [if_pos h2]; exact hlt
      · simp only [if_neg h2]; exact hI.idx_lt r hr
  · intro f hf
    by_cases h1 : f = v
    · subst h1; simpa using hI.bit_enc f hf
    · simpa [Function.update_noteq h1] using hI.bit_enc f hf
  · intro f hf
    by_cases h1 : f = v
    · subst h1; simpa using hI.byte_lt f hf
    · simpa [Function.update_noteq h1] using hI.byte_lt f hf

theorem TablesInv.page_swap (lib : BackStore W) (mode : SWAP_MODE) (page_number clock_time : Nat)
    (ps : page_swap_t W) (hI : TablesInv ps) :
    TablesInv (page_swap lib mode page_number clock_time ps).2 := by
  by_cases h : page_number < 2048
  · by_cases hv : (ps.page_table page_number).valid = 0
    · cases hw : (eviction_write lib mode ps).1
      · rw [page_swap_write_failed lib mode page_number clock_time ps h hv hw]
        exact hI.set_bs ps _
      · cases hr : (fault_in_read lib mode page_number ps).1
        · rw [page_swap_read_failed lib mode page_number clock_time ps h hv hw hr]
          exact hI.set_data ps _ _ _
        · rw [page_swap_fault lib mode page_number clock_time ps h hv hw hr]
          exact (hI.bind ps page_number _ _ (fault_in_read lib mode page_number ps).2.2 h hv
            (choose_victim_frame_lt mode ps.frame_table)).mark _ clock_time _
    · rw [page_swap_hit lib mode page_number clock_time ps h hv]
      exact hI.mark ps clock_time _
  · rw [page_swap_out_of_range lib mode page_number clock_time ps (by omega)]
    exact hI

theorem Reachable.inv (lib : BackStore W) (ps : page_swap_t W) (h : Reachable lib ps) :
    TablesInv ps := by
  induction h with
  | init created ps0 h0 => exact initialize_tables_inv lib created ps0 h0
  | alru page_number clock_time ps0 _ ih => exact ih.page_swap lib _ _ _ ps0
  | lfu page_number clock_time ps0 _ ih => exact ih.page_swap lib _ _ _ ps0

/-! ## Initialization succeeds when the calls it makes succeed -/

theorem init_request_loop_ok (lib : BackStore W)
    (hreq : ∀ w b, (lib.back_store_request w b).1 = true)
    (hwr : ∀ w b d, (lib.back_store_write w b d).1 = true) :
    ∀ (n i : Nat) (w : W), i + n ≤ 2048 → (init_request_loop lib n i w).1 = true := by
  intro n
  induction n with
  | zero => intro i w _; rfl
  | succ n ih =>
    intro i w hle
    unfold init_request_loop
    rcases hQ : lib.back_store_request w (i + 8) with ⟨b, w1⟩
    have h1 := hreq w (i + 8)
    rw [hQ] at h1
    simp only at h1
    subst h1
    simp only
    rcases hP : write_to_back_store lib w1 placeholder i with ⟨b, w2⟩
    have h2 : (write_to_back_store lib w1 placeholder i).1 = true := by
      unfold write_to_back_store
      rw [if_pos (by simp only [MAX_PAGE_TABLE_ENTRIES_SIZE]; omega)]
      exact hwr _ _ _
    rw [hP] at h2
    simp only at h2
    subst h2
    exact ih (i + 1) w2 (by omega)

theorem init_load_loop_ok (lib : BackStore W)
    (hrd : ∀ w b d, b < 520 → (lib.back_store_read w b d).1 = true) :
    ∀ (n i : Nat) (ps : page_swap_t W), i + n ≤ 512 → (init_load_loop lib n i ps).1 = true := by
  intro n
  induction n with
  | zero => intro i ps _; rfl
  | succ n ih =>
    intro i ps hle
    unfold init_load_loop
    simp only
    rcases hR : read_from_back_store lib ps.bs (ps.frame_table i).data i with ⟨b, buf, w1⟩
    have h1 : (read_from_back_store lib ps.bs (ps.frame_table i).data i).1 = true := by
      unfold read_from_back_store
      rw [if_pos (by simp only [MAX_PAGE_TABLE_ENTRIES_SIZE]; omega)]
      exact hrd _ _ _ (by simp only [BS_PAGE_MAP]; omega)
    rw [hR] at h1
    simp only at h1
    subst h1
    exact ih (i + 1) _ (by omega)

theorem initialize_tables_ok (lib : BackStore W)
    (hreq : ∀ w b, (lib.back_store_request w b).1 = true)
    (hwr : ∀ w b d, (lib.back_store_write w b d).1 = true)
    (hrd : ∀ w b d, b < 520 → (lib.back_store_read w b d).1 = true)
    (created : W) (ps : page_swap_t W) :
    (initialize_tables lib created ps).1 = true := by
  unfold initialize_tables
  rcases hQ : init_request_loop lib MAX_PAGE_TABLE_ENTRIES_SIZE 0 created with ⟨b, w1⟩
  have h1 := init_request_loop_ok lib hreq hwr MAX_PAGE_TABLE_ENTRIES_SIZE 0 created (by simp)
  rw [hQ] at h1
  simp only at h1
  subst h1
  exact init_load_loop_ok lib hrd _ _ _ (by simp)

theorem bootState_ok :
    (initialize_tables nullStore ()
      { frame_table := fun _ => zero_frame, page_table := fun _ => zero_page, bs := () }).1 = true := by
  have h1 : ∀ (w : Unit) (b : Nat), (nullStore.back_store_request w b).1 = true := fun _ _ => rfl
  have h2 : ∀ (w : Unit) (b : Nat) (d : Block), (nullStore.back_store_write w b d).1 = true :=
    fun _ _ _ => rfl
  have h3 : ∀ (w : Unit) (b : Nat) (d : Block), b < 520 →
      (nullStore.back_store_read w b d).1 = true := fun _ _ _ _ => rfl
  exact initialize_tables_ok nullStore h1 h2 h3 () _

theorem bootState_reachable : Reachable nullStore bootState := by
  unfold bootState
  exact Reachable.init () _ bootState_ok

theorem bootState_frame (j : Nat) (hj : j < 512) :
    (bootState.frame_table j).page_table_idx = j ∧
    (bootState.frame_table j).access_bit = 128 ∧
    (bootState.frame_table j).access_tracking_byte = 255 ∧
    bootState.page_table j = { frame_table_idx := j, valid := 1 } := by
  unfold bootState
  exact (initialize_tables_state nullStore () _ bootState_ok).1 j hj

theorem bootState_page (j : Nat) (hj : 512 ≤ j) : bootState.page_table j = zero_page := by
  unfold bootState
  exact (initialize_tables_state nullStore () _ bootState_ok).2 j hj

/-! ## Victim selection when no frame scores below the first -/

theorem alru_scan_keep (entries : frame_table_t) :
    ∀ (n i fp min victim : Nat),
      (∀ j, fp ≤ j → j < fp + n → min ≤ (entries j).access_tracking_byte) →
      alru_scan entries n i fp min victim = victim := by
  intro n
  induction n with
  | zero => intro i fp min victim _; rfl
  | succ n ih =>
    intro i fp min victim h
    unfold alru_scan
    rw [if_neg (by have := h fp (le_refl _) (by omega); omega)]
    exact ih _ _ _ _ (fun j h1 h2 => h j (by omega) (by omega))

theorem lfu_scan_keep (entries : frame_table_t) :
    ∀ (n i fp min victim : Nat),
      (∀ j, fp ≤ j → j < fp + n → min ≤ bit_count (entries j).access_tracking_byte) →
      lfu_scan entries n i fp min victim = victim := by
  intro n
  induction n with
  | zero => intro i fp min victim _; rfl
  | succ n ih =>
    intro i fp min victim h
    unfold lfu_scan
    rw [if_neg (by have := h fp (le_refl _) (by omega); omega)]
    exact ih _ _ _ _ (fun j h1 h2 => h j (by omega) (by omega))

theorem choose_victim_frame_all_equal (mode : SWAP_MODE) (entries : frame_table_t) (b : Nat)
    (h : ∀ j, j < 512 → (entries j).access_tracking_byte = b) :
    choose_victim_frame mode entries = 0 := by
  cases mode
  · exact alru_scan_keep entries _ _ _ _ _ (fun j _ hj => by
      rw [h 0 (by norm_num), h j (by simp at hj; omega)])
  · exact lfu_scan_keep entries _ _ _ _ _ (fun j _ hj => by
      rw [h 0 (by norm_num), h j (by simp at hj; omega)])

theorem bootState_victim (mode : SWAP_MODE) : choose_victim_frame mode bootState.frame_table = 0 :=
  choose_victim_frame_all_equal mode _ 255 (fun j hj => (bootState_frame j hj).2.2.1)

/-! ## The victim scan reads tracking bytes only -/

theorem alru_scan_congr (e1 e2 : frame_table_t) :
    ∀ (n i fp min victim : Nat),
      (∀ j, fp ≤ j → j < fp + n →
        (e1 j).access_tracking_byte = (e2 j).access_tracking_byte) →
      alru_scan e1 n i fp min victim = alru_scan e2 n i fp min victim := by
  intro n
  induction n with
  | zero => intro i fp min victim _; rfl
  | succ n ih =>
    intro i fp min victim h
    unfold alru_scan
    rw [h fp (le_refl _) (by omega),
      ih (i + 1) (fp + 1) _ i (fun j h1 h2 => h j (by omega) (by omega)),
      ih (i + 1) (fp + 1) min victim (fun j h1 h2 => h j (by omega) (by omega))]

theorem lfu_scan_congr (e1 e2 : frame_table_t) :
    ∀ (n i fp min victim : Nat),
      (∀ j, fp ≤ j → j < fp + n →
        (e1 j).access_tracking_byte = (e2 j).access_tracking_byte) →
      lfu_scan e1 n i fp min victim = lfu_scan e2 n i fp min victim := by
  intro n
  induction n with
  | zero => intro i fp min victim _; rfl
  | succ n ih =>
    intro i fp min victim h
    unfold lfu_scan
    rw [h fp (le_refl _) (by omega),
      ih (i + 1) (fp + 1) _ i (fun j h1 h2 => h j (by omega) (by omega)),
      ih (i + 1) (fp + 1) min victim (fun j h1 h2 => h j (by omega) (by omega))]

theorem choose_victim_frame_congr (mode : SWAP_MODE) (e1 e2 : frame_table_t)
    (h : ∀ j, j < 512 → (e1 j).access_tracking_byte = (e2 j).access_tracking_byte) :
    choose_victim_frame mode e1 = choose_victim_frame mode e2 := by
  cases mode
  · show alru_scan e1 _ 1 0 _ 0 = alru_scan e2 _ 1 0 _ 0
    rw [h 0 (by norm_num)]
    exact alru_scan_congr e1 e2 _ _ _ _ _ (fun j _ hj => h j (by simp at hj; omega))
  · show lfu_scan e1 _ 1 0 _ 0 = lfu_scan e2 _ 1 0 _ 0
    rw [h 0 (by norm_num)]
    exact lfu_scan_congr e1 e2 _ _ _ _ _ (fun j _ hj => h j (by simp at hj; omega))

/-! ## Two decay ticks with only page 0 referenced -/

theorem hit_tick_frame (lib : BackStore W) (mode : SWAP_MODE) (page_number clock_time : Nat)
    (ps : page_swap_t W) (hp : page_number < 2048) (hv : (ps.page_table page_number).valid ≠ 0)
    (hc : clock_time ≠ 0 ∧ clock_time % 100 = 0) (j : Nat) (hj : j < 512) :
    (page_swap lib mode page_number clock_time ps).2.frame_table j =
      decay_frame (Function.update ps.frame_table (ps.page_table page_number).frame_table_idx
        { ps.frame_table (ps.page_table page_number).frame_table_idx with access_bit := 128 } j) := by
  rw [page_swap_hit lib mode page_number clock_time ps hp hv]
  simp only [mark_and_decay_tick _ _ _ hc, access_update_apply, if_pos hj]

theorem two_ticks_bytes (lib : BackStore W) (ps : page_swap_t W)
    (hpage : ps.page_table 0 = { frame_table_idx := 0, valid := 1 })
    (hfr : ∀ j, j < 512 → (ps.frame_table j).access_tracking_byte = 255 ∧
      (ps.frame_table j).access_bit = 128)
    (j : Nat) (hj : j < 512) :
    ((approx_least_recently_used lib 0 200
      (approx_least_recently_used lib 0 100 ps).2).2.frame_table j).access_tracking_byte =
      if j = 0 then 255 else 127 := by
  unfold approx_least_recently_used
  have hv : (ps.page_table 0).valid ≠ 0 := by rw [hpage]; exact Nat.one_ne_zero
  have hpt1 : (page_swap lib SWAP_MODE.ALRU 0 100 ps).2.page_table = ps.page_table := by
    rw [page_swap_hit lib _ 0 100 ps (by norm_num) hv]
  have hv1 : ((page_swap lib SWAP_MODE.ALRU 0 100 ps).2.page_table 0).valid ≠ 0 := by
    rw [hpt1]; exact hv
  have hf1 : ∀ k, k < 512 →
      ((page_swap lib SWAP_MODE.ALRU 0 100 ps).2.frame_table k).access_tracking_byte = 255 ∧
      ((page_swap lib SWAP_MODE.ALRU 0 100 ps).2.frame_table k).access_bit = 0 := by
    intro k hk
    rw [hit_tick_frame lib _ 0 100 ps (by norm_num) hv (by norm_num) k hk, hpage]
    refine ⟨?_, rfl⟩
    rw [decay_frame_byte]
    by_cases hk0 : k = 0
    · subst hk0
      simp only [Function.update_same]
      rw [(hfr 0 hk).1]
      decide
    · simp only [Function.update_noteq hk0]
      rw [(hfr k hk).1, (hfr k hk).2]
      decide
  rw [hit_tick_frame lib _ 0 200 _ (by norm_num) hv1 (by norm_num) j hj, hpt1, hpage,
    decay_frame_byte]
  by_cases hj0 : j = 0
  · subst hj0
    simp only [Function.update_same, if_true]
    rw [(hf1 0 hj).1]
    decide
  · simp only [Function.update_noteq hj0, if_neg hj0]
    rw [(hf1 j hj).1, (hf1 j hj).2]
    decide

theorem skewState_bytes (j : Nat) (hj : j < 512) :
    (skewState.frame_table j).access_tracking_byte = (skewTable j).access_tracking_byte := by
  unfold skewState
  exact two_ticks_bytes nullStore bootState (bootState_frame 0 (by norm_num)).2.2.2
    (fun k hk => ⟨(bootState_frame k hk).2.2.1, (bootState_frame k hk).2.1⟩) j hj

theorem skewState_reachable : Reachable nullStore skewState := by
  unfold skewState
  exact Reachable.alru 0 200 _ (Reachable.alru 0 100 _ bootState_reachable)

set_option maxRecDepth 100000 in
theorem skewTable_alru : choose_victim_frame SWAP_MODE.ALRU skewTable = 2 := by decide

set_option maxRecDepth 100000 in
theorem skewTable_lfu : choose_victim_frame SWAP_MODE.LFU skewTable = 2 := by decide

/-! ## The calls recorded during an initialization -/

theorem fill_events_succ (i n : Nat) :
    fill_events i (n + 1) =
      BsEvent.request (i + 8) true :: BsEvent.write (i + 8) placeholder true ::
        fill_events (i + 1) n := by
  simp [fill_events, List.range'_succ]

theorem load_events_succ (entries : frame_table_t) (i n : Nat) :
    load_events entries i (n + 1) =
      BsEvent.read (i + 8) true (entries i).data :: load_events entries (i + 1) n := by
  simp [load_events, List.range'_succ]

theorem fill_events_ok (i n : Nat) : ∀ e ∈ fill_events i n, e.ok = true := by
  intro e he
  simp only [fill_events, List.mem_flatMap, List.mem_cons, List.mem_singleton,
    List.not_mem_nil, or_false] at he
  obtain ⟨k, _, rfl | rfl⟩ := he <;> rfl

theorem load_events_ok (entries : frame_table_t) (i n : Nat) :
    ∀ e ∈ load_events entries i n, e.ok = true := by
  intro e he
  simp only [load_events, List.mem_map] at he
  obtain ⟨k, _, rfl⟩ := he
  rfl

theorem load_events_congr (e1 e2 : frame_table_t) (i n : Nat)
    (h : ∀ j, i ≤ j → j < i + n → e1 j = e2 j) : load_events e1 i n = load_events e2 i n := by
  unfold load_events
  apply List.map_congr_left
  intro k hk
  rw [List.mem_range'_1] at hk
  rw [h k hk.1 hk.2]

theorem init_request_loop_traced (lib : BackStore W) :
    ∀ (n i : Nat) (w : W) (t : List BsEvent), i + n ≤ 2048 →
      ∃ evs, (init_request_loop (traced lib) n i (w, t)).2.2 = t ++ evs ∧
        (∀ e ∈ evs, init_call e) ∧
        ((init_request_loop (traced lib) n i (w, t)).1 = true → evs = fill_events i n) ∧
        ((init_request_loop (traced lib) n i (w, t)).1 = false → ∃ e ∈ evs, e.ok = false) := by
  intro n
  induction n with
  | zero =>
    intro i w t _
    exact ⟨[], by simp [init_request_loop], by simp, fun _ => by simp [fill_events],
      fun h => by simp [init_request_loop] at h⟩
  | succ n ih =>
    intro i w t hle
    unfold init_request_loop
    have hq : (traced lib).back_store_request (w, t) (i + 8) =
        ((lib.back_store_request w (i + 8)).1, ((lib.back_store_request w (i + 8)).2,
          t ++ [BsEvent.request (i + 8) (lib.back_store_request w (i + 8)).1])) := rfl
    rw [hq]
    have c1 : ∀ ok, init_call (BsEvent.request (i + 8) ok) := by
      intro ok; unfold init_call; omega
    have c2 : ∀ ok, init_call (BsEvent.write (i + 8) placeholder ok) := by
      intro ok; unfold init_call; exact ⟨by omega, by omega, rfl⟩
    cases hb : (lib.back_store_request w (i + 8)).1
    · refine ⟨[BsEvent.request (i + 8) false], rfl, ?_, fun h => ?_, fun _ => ?_⟩
      · intro e he
        rw [List.mem_singleton] at he
        subst he
        exact c1 false
      · simp at h
      · exact ⟨_, List.mem_singleton_self _, rfl⟩
    · simp only
      have hp : write_to_back_store (traced lib) ((lib.back_store_request w (i + 8)).2,
            t ++ [BsEvent.request (i + 8) true]) placeholder i =
          ((lib.back_store_write (lib.back_store_request w (i + 8)).2 (i + 8) placeholder).1,
            ((lib.back_store_write (lib.back_store_request w (i + 8)).2 (i + 8) placeholder).2,
              t ++ [BsEvent.request (i + 8) true] ++ [BsEvent.write (i + 8) placeholder
                (lib.back_store_write (lib.back_store_request w (i + 8)).2 (i + 8)
                  placeholder).1])) := by
        unfold write_to_back_store
        rw [if_pos (by simp only [MAX_PAGE_TABLE_ENTRIES_SIZE]; omega)]
        rfl
      rw [hp]
      cases hb2 : (lib.back_store_write (lib.back_store_request w (i + 8)).2 (i + 8)
          placeholder).1
      · refine ⟨[BsEvent.request (i + 8) true, BsEvent.write (i + 8) placeholder false],
          by simp, ?_, fun h => ?_, fun _ => ?_⟩
        · intro e he
          simp only [List.mem_cons, List.mem_singleton, List.not_mem_nil, or_false] at he
          rcases he with rfl | rfl
          · exact c1 true
          · exact c2 false
        · simp at h
        · exact ⟨BsEvent.write (i + 8) placeholder false, by simp, rfl⟩
      · simp only
        obtain ⟨evs, h1, h2, h3, h4⟩ := ih (i + 1)
          (lib.back_store_write (lib.back_store_request w (i + 8)).2 (i + 8) placeholder).2
          (t ++ [BsEvent.request (i + 8) true] ++ [BsEvent.write (i + 8) placeholder true])
          (by omega)
        refine ⟨BsEvent.request (i + 8) true :: BsEvent.write (i + 8) placeholder true :: evs,
          ?_, ?_, fun h => ?_, fun h => ?_⟩
        · rw [h1]; simp
        · intro e he
          simp only [List.mem_cons] at he
          rcases he with rfl | rfl | he
          · exact c1 true
          · exact c2 true
          · exact h2 e he
        · rw [fill_events_succ, h3 h]
        · obtain ⟨e, he, hok⟩ := h4 h
          exact ⟨e, by simp [he], hok⟩

theorem read_from_back_store_traced (lib : BackStore W) (wt : W × List BsEvent) (data : Block)
    (page : Nat) (hp : page < 2048) :
    read_from_back_store (traced lib) wt data page =
      ((lib.back_store_read wt.1 (page + 8) data).1,
        (lib.back_store_read wt.1 (page + 8) data).2.1,
        ((lib.back_store_read wt.1 (page + 8) data).2.2,
          wt.2 ++ [BsEvent.read (page + 8) (lib.back_store_read wt.1 (page + 8) data).1
            (lib.back_store_read wt.1 (page + 8) data).2.1])) := by
  unfold read_from_back_store
  rw [if_pos (by simpa using hp)]
  rfl

theorem init_load_loop_traced (lib : BackStore W) :
    ∀ (n i : Nat) (ps : page_swap_t (W × List BsEvent)), i + n ≤ 512 →
      ∃ evs, (init_load_loop (traced lib) n i ps).2.bs.2 = ps.bs.2 ++ evs ∧
        (∀ e ∈ evs, init_call e) ∧
        ((init_load_loop (traced lib) n i ps).1 = true →
          evs = load_events (init_load_loop (traced lib) n i ps).2.frame_table i n) ∧
        ((init_load_loop (traced lib) n i ps).1 = false → ∃ e ∈ evs, e.ok = false) := by
  intro n
  induction n with
  | zero =>
    intro i ps _
    exact ⟨[], by simp [init_load_loop], by simp, fun _ => by simp [load_events],
      fun h => by simp [init_load_loop] at h⟩
  | succ n ih =>
    intro i ps hle
    have c1 : ∀ ok buf, init_call (BsEvent.read (i + 8) ok buf) := by
      intro ok buf; unfold init_call; omega
    unfold init_load_loop
    simp only
    rw [read_from_back_store_traced lib ps.bs _ i (by omega)]
    cases hb : (lib.back_store_read ps.bs.1 (i + 8) (ps.frame_table i).data).1
    · refine ⟨[BsEvent.read (i + 8) false
        (lib.back_store_read ps.bs.1 (i + 8) (ps.frame_table i).data).2.1], rfl, ?_,
        fun h => ?_, fun _ => ?_⟩
      · intro e he
        rw [List.mem_singleton] at he
        subst he
        exact c1 _ _
      · simp at h
      · exact ⟨_, List.mem_singleton_self _, rfl⟩
    · simp only
      obtain ⟨evs, h1, h2, h3, h4⟩ := ih (i + 1)
        { frame_table := Function.update ps.frame_table i
            { page_table_idx := i
              data := (lib.back_store_read ps.bs.1 (i + 8) (ps.frame_table i).data).2.1
              access_tracking_byte := 255, access_bit := 128 }
          page_table := Function.update ps.page_table i { frame_table_idx := i, valid := 1 }
          bs := ((lib.back_store_read ps.bs.1 (i + 8) (ps.frame_table i).data).2.2,
            ps.bs.2 ++ [BsEvent.read (i + 8) true
              (lib.back_store_read ps.bs.1 (i + 8) (ps.frame_table i).data).2.1]) } (by omega)
      refine ⟨BsEvent.read (i + 8) true
          (lib.back_store_read ps.bs.1 (i + 8) (ps.frame_table i).data).2.1 :: evs,
        ?_, ?_, fun h => ?_, fun h => ?_⟩
      · rw [h1]; simp
      · intro e he
        simp only [List.mem_cons] at he
        rcases he with rfl | he
        · exact c1 _ _
        · exact h2 e he
      · have hkeep := ((init_load_loop_state (traced lib) n (i + 1) _ h).2 i (by omega)).1
        rw [load_events_succ, ← h3 h, hkeep]
        simp
      · obtain ⟨e, he, hok⟩ := h4 h
        exact ⟨e, by simp [he], hok⟩

theorem initialize_tables_traced (lib : BackStore W) (created : W)
    (ps : page_swap_t (W × List BsEvent)) :
    ∃ evs, (initialize_tables (traced lib) (created, []) ps).2.bs.2 = evs ∧
      (∀ e ∈ evs, init_call e) ∧
      ((initialize_tables (traced lib) (created, []) ps).1 = true →
        evs = fill_events 0 2048 ++
          load_events (initialize_tables (traced lib) (created, []) ps).2.frame_table 0 512) ∧
      ((initialize_tables (traced lib) (created, []) ps).1 = false →
        ∃ e ∈ evs, e.ok = false) := by
  obtain ⟨evs, h1, h2, h3, h4⟩ :=
    init_request_loop_traced lib 2048 0 created [] (by norm_num)
  unfold initialize_tables
  simp only [MAX_PAGE_TABLE_ENTRIES_SIZE, MAX_PHYSICAL_MEMORY_SIZE]
  rcases hQ : init_request_loop (traced lib) 2048 0 (created, []) with ⟨b, w1, t1⟩
  rw [hQ] at h1 h3 h4
  simp only [List.nil_append] at h1
  subst h1
  cases b
  · exact ⟨t1, rfl, h2, fun h => by simp at h, fun _ => h4 rfl⟩
  · simp only
    obtain ⟨evs2, k1, k2, k3, k4⟩ := init_load_loop_traced lib 512 0
      { frame_table := fun _ => zero_frame, page_table := fun _ => zero_page, bs := (w1, t1) }
      (by norm_num)
    simp only at k1
    refine ⟨_, rfl, ?_, fun h => ?_, fun h => ?_⟩
    · intro e he
      rw [k1, List.mem_append] at he
      rcases he with he | he
      · exact h2 e he
      · exact k2 e he
    · rw [k1, ← k3 h, h3 rfl]
    · obtain ⟨e, he, hok⟩ := k4 h
      exact ⟨e, by rw [k1]; exact List.mem_append_right _ he, hok⟩

theorem mem_fill_events (i n k : Nat) (h1 : i ≤ k) (h2 : k < i + n) :
    BsEvent.request (k + 8) true ∈ fill_events i n ∧
    BsEvent.write (k + 8) placeholder true ∈ fill_events i n := by
  simp only [fill_events, List.mem_flatMap, List.mem_range'_1]
  exact ⟨⟨k, ⟨h1, h2⟩, by simp⟩, ⟨k, ⟨h1, h2⟩, by simp⟩⟩

theorem mem_load_events (entries : frame_table_t) (i n k : Nat) (h1 : i ≤ k) (h2 : k < i + n) :
    BsEvent.read (k + 8) true (entries k).data ∈ load_events entries i n := by
  simp only [load_events, List.mem_map, List.mem_range'_1]
  exact ⟨k, ⟨h1, h2⟩, rfl⟩

/-- When the recorded initialization returns true every recorded call succeeded. -/
theorem initialize_tables_traced_ok (lib : BackStore W) (created : W)
    (ps : page_swap_t (W × List BsEvent))
    (h : (initialize_tables (traced lib) (created, []) ps).1 = true) :
    ∀ e ∈ (initialize_tables (traced lib) (created, []) ps).2.bs.2, e.ok = true := by
  obtain ⟨evs, h1, _, h3, _⟩ := initialize_tables_traced lib created ps
  rw [h1, h3 h]
  intro e he
  rcases List.mem_append.mp he with he | he
  · exact fill_events_ok _ _ e he
  · exact load_events_ok _ _ _ e he

/-! ## Recording the calls does not change the run -/

theorem write_to_back_store_forget (lib : BackStore W) (wt : W × List BsEvent) (data : Block)
    (page : Nat) :
    (write_to_back_store (traced lib) wt data page).1 =
        (write_to_back_store lib wt.1 data page).1 ∧
      (write_to_back_store (traced lib) wt data page).2.1 =
        (write_to_back_store lib wt.1 data page).2 := by
  unfold write_to_back_store
  split <;> exact ⟨rfl, rfl⟩

theorem read_from_back_store_forget (lib : BackStore W) (wt : W × List BsEvent) (data : Block)
    (page : Nat) :
    (read_from_back_store (traced lib) wt data page).1 =
        (read_from_back_store lib wt.1 data page).1 ∧
      (read_from_back_store (traced lib) wt data page).2.1 =
        (read_from_back_store lib wt.1 data page).2.1 ∧
      (read_from_back_store (traced lib) wt data page).2.2.1 =
        (read_from_back_store lib wt.1 data page).2.2 := by
  unfold read_from_back_store
  split <;> exact ⟨rfl, rfl, rfl⟩

theorem init_request_loop_forget (lib : BackStore W) :
    ∀ (n i : Nat) (w : W) (t : List BsEvent),
      (init_request_loop (traced lib) n i (w, t)).1 = (init_request_loop lib n i w).1 ∧
      (init_request_loop (traced lib) n i (w, t)).2.1 = (init_request_loop lib n i w).2 := by
  intro n
  induction n with
  | zero => intro i w t; exact ⟨rfl, rfl⟩
  | succ n ih =>
    intro i w t
    unfold init_request_loop
    have hq : (traced lib).back_store_request (w, t) (i + 8) =
        ((lib.back_store_request w (i + 8)).1, ((lib.back_store_request w (i + 8)).2,
          t ++ [BsEvent.request (i + 8) (lib.back_store_request w (i + 8)).1])) := rfl
    rw [hq]
    rcases hQ : lib.back_store_request w (i + 8) with ⟨b, w1⟩
    cases b
    · exact ⟨rfl, rfl⟩
    · simp only
      obtain ⟨f1, f2⟩ := write_to_back_store_forget lib
        (w1, t ++ [BsEvent.request (i + 8) true]) placeholder i
      rcases hP : write_to_back_store (traced lib) (w1, t ++ [BsEvent.request (i + 8) true])
        placeholder i with ⟨b, w2, t2⟩
      rcases hP2 : write_to_back_store lib w1 placeholder i with ⟨b2, w3⟩
      rw [hP, hP2] at f1 f2
      simp only at f1 f2
      subst f1 f2
      cases b
      · exact ⟨rfl, rfl⟩
      · exact ih (i + 1) w2 t2

theorem init_load_loop_forget (lib : BackStore W) :
    ∀ (n i : Nat) (ps : page_swap_t (W × List BsEvent)),
      (init_load_loop (traced lib) n i ps).1 = (init_load_loop lib n i (forget_trace ps)).1 ∧
      forget_trace (init_load_loop (traced lib) n i ps).2 =
        (init_load_loop lib n i (forget_trace ps)).2 := by
  intro n
  induction n with
  | zero => intro i ps; exact ⟨rfl, rfl⟩
  | succ n ih =>
    intro i ps
    unfold init_load_loop
    simp only
    obtain ⟨f1, f2, f3⟩ := read_from_back_store_forget lib ps.bs (ps.frame_table i).data i
    rcases hR : read_from_back_store (traced lib) ps.bs (ps.frame_table i).data i with
      ⟨b, buf, w1, t1⟩
    have hR2 : read_from_back_store lib (forget_trace ps).bs
        ((forget_trace ps).frame_table i).data i = (b, buf, w1) := by
      rw [hR] at f1 f2 f3
      simp only at f1 f2 f3
      show read_from_back_store lib ps.bs.1 (ps.frame_table i).data i = (b, buf, w1)
      rw [f1, f2, f3]
    rw [hR2]
    cases b
    · exact ⟨rfl, rfl⟩
    · exact ih (i + 1) _

/-- A run of the initialization against a recording library returns what the
run against the library itself returns, and leaves the same tables and the
same back store. -/
theorem initialize_tables_forget (lib : BackStore W) (created : W)
    (ps : page_swap_t (W × List BsEvent)) :
    (initialize_tables (traced lib) (created, []) ps).1 =
      (initialize_tables lib created (forget_trace ps)).1 ∧
    forget_trace (initialize_tables (traced lib) (created, []) ps).2 =
      (initialize_tables lib created (forget_trace ps)).2 := by
  unfold initialize_tables
  obtain ⟨f1, f2⟩ := init_request_loop_forget lib MAX_PAGE_TABLE_ENTRIES_SIZE 0 created []
  rcases hQ : init_request_loop (traced lib) MAX_PAGE_TABLE_ENTRIES_SIZE 0 (created, []) with
    ⟨b, w1, t1⟩
  rcases hQ2 : init_request_loop lib MAX_PAGE_TABLE_ENTRIES_SIZE 0 created with ⟨b2, w2⟩
  rw [hQ, hQ2] at f1 f2
  simp only at f1 f2
  subst f1 f2
  cases b
  · exact ⟨rfl, rfl⟩
  · exact init_load_loop_forget lib MAX_PHYSICAL_MEMORY_SIZE 0
      { frame_table := fun _ => zero_frame, page_table := fun _ => zero_page, bs := (w1, t1) }

/-! ## Occupancy -/

theorem TablesInv.valid_count_eq (ps : page_swap_t W) (hI : TablesInv ps) :
    valid_count ps = 512 := by
  unfold valid_count
  have himg : (Finset.range MAX_PAGE_TABLE_ENTRIES_SIZE).filter
        (fun p => (ps.page_table p).valid ≠ 0) =
      (Finset.range 512).image (fun f => (ps.frame_table f).page_table_idx) := by
    ext p
    simp only [Finset.mem_filter, Finset.mem_range, Finset.mem_image, MAX_PAGE_TABLE_ENTRIES_SIZE]
    constructor
    · rintro ⟨hp, hv⟩
      exact ⟨(ps.page_table p).frame_table_idx, hI.idx_lt p hp, hI.page_frame p hp hv⟩
    · rintro ⟨f, hf, rfl⟩
      exact ⟨(hI.frame_page f hf).1, (hI.frame_page f hf).2.1⟩
  rw [himg, Finset.card_image_of_injOn, Finset.card_range]
  intro f1 h1 f2 h2 e
  simp only [Finset.coe_range, Set.mem_Iio] at h1 h2
  simp only at e
  have e1 := (hI.frame_page f1 h1).2.2
  have e2 := (hI.frame_page f2 h2).2.2
  rw [e] at e1
  exact e1.symm.trans e2

/-! ## Claims -/

/-- C1 (bijection invariant). In every state reachable from a successful
initialization by references under either policy, whatever the back store
answers, every valid page names a frame whose owner is that page, and two
distinct valid pages never name the same frame. -/
theorem bijection_invariant (lib : BackStore W) (ps : page_swap_t W) (h : Reachable lib ps) :
    (∀ p, p < 2048 → (ps.page_table p).valid ≠ 0 →
      (ps.frame_table (ps.page_table p).frame_table_idx).page_table_idx = p) ∧
    (∀ p q, p < 2048 → q < 2048 → (ps.page_table p).valid ≠ 0 → (ps.page_table q).valid ≠ 0 →
      p ≠ q → (ps.page_table p).frame_table_idx ≠ (ps.page_table q).frame_table_idx) := by
  have hI := Reachable.inv lib ps h
  refine ⟨hI.page_frame, fun p q hp hq hpv hqv hne e => hne ?_⟩
  have e1 := hI.page_frame p hp hpv
  have e2 := hI.page_frame q hq hqv
  rw [e] at e1
  exact e1.symm.trans e2

/-- Witness of `bijection_invariant`: the state after the initialization on
`nullStore` and a fault on page 600. -/
theorem bijection_invariant_witness :
    Reachable nullStore (approx_least_recently_used nullStore 600 1 bootState).2 ∧
    ((∀ p, p < 2048 →
        ((approx_least_recently_used nullStore 600 1 bootState).2.page_table p).valid ≠ 0 →
        ((approx_least_recently_used nullStore 600 1 bootState).2.frame_table
          ((approx_least_recently_used nullStore 600 1 bootState).2.page_table p).frame_table_idx
          ).page_table_idx = p) ∧
      (∀ p q, p < 2048 → q < 2048 →
        ((approx_least_recently_used nullStore 600 1 bootState).2.page_table p).valid ≠ 0 →
        ((approx_least_recently_used nullStore 600 1 bootState).2.page_table q).valid ≠ 0 →
        p ≠ q →
        ((approx_least_recently_used nullStore 600 1 bootState).2.page_table p).frame_table_idx ≠
          ((approx_least_recently_used nullStore 600 1 bootState).2.page_table q).frame_table_idx)) :=
  ⟨Reachable.alru 600 1 bootState bootState_reachable,
    bijection_invariant nullStore _ (Reachable.alru 600 1 bootState bootState_reachable)⟩

/-- C2 (occupancy invariant). Right after a successful initialization exactly
512 pages are valid, and in every reachable state at most 512 pages are
valid. -/
theorem occupancy_invariant (lib : BackStore W) :
    (∀ (created : W) (ps0 : page_swap_t W), (initialize_tables lib created ps0).1 = true →
      valid_count (initialize_tables lib created ps0).2 = MAX_PHYSICAL_MEMORY_SIZE) ∧
    (∀ ps : page_swap_t W, Reachable lib ps → valid_count ps ≤ MAX_PHYSICAL_MEMORY_SIZE) := by
  refine ⟨fun created ps0 h => ?_, fun ps h => ?_⟩
  · exact (initialize_tables_inv lib created ps0 h).valid_count_eq
  · exact le_of_eq (Reachable.inv lib ps h).valid_count_eq

/-- Witness of `occupancy_invariant`: the initialization on `nullStore`, and the
state after a later fault on page 600. -/
theorem occupancy_invariant_witness :
    valid_count bootState = 512 ∧
    valid_count (approx_least_recently_used nullStore 600 1 bootState).2 ≤ 512 :=
  ⟨(occupancy_invariant nullStore).1 () _ bootState_ok,
    (occupancy_invariant nullStore).2 _ (Reachable.alru 600 1 bootState bootState_reachable)⟩

/-- C3 (fault-resolved postcondition). In a reachable state, a reference under
either policy to an in-range invalid page whose eviction write and fault-in
read both succeed returns the record made of the requested page, the frame `v`
that the selector picks on the state before the call, and the page that frame
`v` owned. Afterwards the requested page is valid and bound to `v`, the former
owner is invalid, frame `v` is owned by the requested page and holds the block
that was read, and every other page entry and every other frame's owner are
unchanged. -/
theorem fault_resolved (lib : BackStore W) (mode : SWAP_MODE) (page_number clock_time : Nat)
    (ps : page_swap_t W) (h : Reachable lib ps) (hp : page_number < 2048)
    (hv : (ps.page_table page_number).valid = 0)
    (hw : (eviction_write lib mode ps).1 = true)
    (hr : (fault_in_read lib mode page_number ps).1 = true) :
    (page_swap lib mode page_number clock_time ps).1 =
      some { page_requested := page_number
             frame_replaced := choose_victim_frame mode ps.frame_table
             page_replaced :=
               (ps.frame_table (choose_victim_frame mode ps.frame_table)).page_table_idx } ∧
    (page_swap lib mode page_number clock_time ps).2.page_table page_number =
      { frame_table_idx := choose_victim_frame mode ps.frame_table, valid := 1 } ∧
    ((page_swap lib mode page_number clock_time ps).2.page_table
      (ps.frame_table (choose_victim_frame mode ps.frame_table)).page_table_idx).valid = 0 ∧
    ((page_swap lib mode page_number clock_time ps).2.frame_table
      (choose_victim_frame mode ps.frame_table)).page_table_idx = page_number ∧
    ((page_swap lib mode page_number clock_time ps).2.frame_table
      (choose_victim_frame mode ps.frame_table)).data =
        (fault_in_read lib mode page_number ps).2.1 ∧
    (∀ q, q ≠ page_number →
      q ≠ (ps.frame_table (choose_victim_frame mode ps.frame_table)).page_table_idx →
      (page_swap lib mode page_number clock_time ps).2.page_table q = ps.page_table q) ∧
    (∀ f, f ≠ choose_victim_frame mode ps.frame_table →
      ((page_swap lib mode page_number clock_time ps).2.frame_table f).page_table_idx =
        (ps.frame_table f).page_table_idx) := by
  have hI := Reachable.inv lib ps h
  have hlt := choose_victim_frame_lt mode ps.frame_table
  obtain ⟨_, hqv, _⟩ := hI.frame_page _ hlt
  have hqp : (ps.frame_table (choose_victim_frame mode ps.frame_table)).page_table_idx ≠
      page_number := by
    intro e; rw [e] at hqv; exact hqv hv
  rw [page_swap_fault lib mode page_number clock_time ps hp hv hw hr]
  refine ⟨rfl, ?_, ?_, ?_, ?_, ?_, ?_⟩
  · simp only [Function.update_apply, if_neg (Ne.symm hqp), if_true]
  · simp only [Function.update_apply, if_true]
  · simp only [mark_and_decay_page_table_idx, Function.update_apply, if_true]
  · simp only [mark_and_decay_data, Function.update_apply, if_true]
  · intro q h1 h2
    simp only [Function.update_apply, if_neg h1, if_neg h2]
  · intro f hf
    simp only [mark_and_decay_page_table_idx, Function.update_apply, if_neg hf]

/-- Witness of `fault_resolved`: right after the initialization, page 600 at
clock 1 under ALRU gives the record (600, frame 0, page 0); page 600 becomes
valid in frame 0 and page 0 becomes invalid. -/
theorem fault_resolved_witness :
    (approx_least_recently_used nullStore 600 1 bootState).1 =
      some { page_requested := 600, frame_replaced := 0, page_replaced := 0 } ∧
    (approx_least_recently_used nullStore 600 1 bootState).2.page_table 600 =
      { frame_table_idx := 0, valid := 1 } ∧
    ((approx_least_recently_used nullStore 600 1 bootState).2.page_table 0).valid = 0 ∧
    ((approx_least_recently_used nullStore 600 1 bootState).2.frame_table 0).page_table_idx =
      600 := by
  have aux : ∀ ps : page_swap_t Unit, Reachable nullStore ps →
      (ps.page_table 600).valid = 0 → choose_victim_frame SWAP_MODE.ALRU ps.frame_table = 0 →
      (ps.frame_table 0).page_table_idx = 0 →
      (approx_least_recently_used nullStore 600 1 ps).1 =
        some { page_requested := 600, frame_replaced := 0, page_replaced := 0 } ∧
      (approx_least_recently_used nullStore 600 1 ps).2.page_table 600 =
        { frame_table_idx := 0, valid := 1 } ∧
      ((approx_least_recently_used nullStore 600 1 ps).2.page_table 0).valid = 0 ∧
      ((approx_least_recently_used nullStore 600 1 ps).2.frame_table 0).page_table_idx = 600 := by
    intro ps hreach hv hvic hown
    have hw : (eviction_write nullStore SWAP_MODE.ALRU ps).1 = true := by
      unfold eviction_write write_to_back_store
      rw [hvic, hown]
      rfl
    have hr : (fault_in_read nullStore SWAP_MODE.ALRU 600 ps).1 = true := by
      unfold fault_in_read read_from_back_store
      rfl
    have key := fault_resolved nullStore SWAP_MODE.ALRU 600 1 ps hreach (by norm_num) hv hw hr
    rw [hvic, hown] at key
    exact ⟨key.1, key.2.1, key.2.2.1, key.2.2.2.1⟩
  have hv : (bootState.page_table 600).valid = 0 := by
    rw [bootState_page 600 (by norm_num)]; rfl
  exact aux bootState bootState_reachable hv (bootState_victim SWAP_MODE.ALRU)
    (bootState_frame 0 (by norm_num)).1

/-- C4 (hit). A reference under either policy, at any clock value, to an
in-range valid page returns no result, leaves the back store as it was (so no
read or write reaches it: with a recording library the record is unchanged),
and leaves the page table and every frame's owner and data unchanged. The
frame table afterwards is the old one with the access bit of the page's frame
set to 128, decayed once if the clock is a nonzero multiple of 100. When the
clock is 0 or not a multiple of 100, that access bit is 128 afterwards, every
tracking byte is unchanged and every other frame's access bit is unchanged. -/
theorem hit_reference (lib : BackStore W) (mode : SWAP_MODE) (page_number clock_time : Nat)
    (ps : page_swap_t W) (hp : page_number < 2048)
    (hv : (ps.page_table page_number).valid ≠ 0) :
    (page_swap lib mode page_number clock_time ps).1 = none ∧
    (page_swap lib mode page_number clock_time ps).2.bs = ps.bs ∧
    (page_swap lib mode page_number clock_time ps).2.page_table = ps.page_table ∧
    (∀ f, ((page_swap lib mode page_number clock_time ps).2.frame_table f).page_table_idx =
        (ps.frame_table f).page_table_idx ∧
      ((page_swap lib mode page_number clock_time ps).2.frame_table f).data =
        (ps.frame_table f).data) ∧
    (page_swap lib mode page_number clock_time ps).2.frame_table =
      (if clock_time ≠ 0 ∧ clock_time % 100 = 0 then
        access_update (Function.update ps.frame_table (ps.page_table page_number).frame_table_idx
          { ps.frame_table (ps.page_table page_number).frame_table_idx with access_bit := 128 })
      else
        Function.update ps.frame_table (ps.page_table page_number).frame_table_idx
          { ps.frame_table (ps.page_table page_number).frame_table_idx with access_bit := 128 }) ∧
    (clock_time = 0 ∨ clock_time % 100 ≠ 0 →
      ((page_swap lib mode page_number clock_time ps).2.frame_table
        (ps.page_table page_number).frame_table_idx).access_bit = 128 ∧
      (∀ f, ((page_swap lib mode page_number clock_time ps).2.frame_table f).access_tracking_byte =
          (ps.frame_table f).access_tracking_byte) ∧
      (∀ f, f ≠ (ps.page_table page_number).frame_table_idx →
        ((page_swap lib mode page_number clock_time ps).2.frame_table f).access_bit =
          (ps.frame_table f).access_bit)) := by
  rw [page_swap_hit lib mode page_number clock_time ps hp hv]
  refine ⟨rfl, rfl, rfl, fun f => ?_, ?_, fun hc => ?_⟩
  · exact ⟨mark_and_decay_page_table_idx _ _ _ _, mark_and_decay_data _ _ _ _⟩
  · simp only [mark_and_decay, TIME_INTERVAL]
  · simp only [mark_and_decay_no_tick _ _ _ hc]
    refine ⟨by simp, fun f => ?_, fun f hf => ?_⟩
    · by_cases hf : f = (ps.page_table page_number).frame_table_idx
      · subst hf; simp
      · simp [Function.update_noteq hf]
    · simp [Function.update_noteq hf]

/-- Witness of `hit_reference`: page 5 right after the initialization, at clock 1. -/
theorem hit_reference_witness :
    (approx_least_recently_used nullStore 5 1 bootState).1 = none ∧
    (approx_least_recently_used nullStore 5 1 bootState).2.page_table = bootState.page_table ∧
    ((approx_least_recently_used nullStore 5 1 bootState).2.frame_table 5).access_bit = 128 ∧
    (∀ f, ((approx_least_recently_used nullStore 5 1 bootState).2.frame_table f
        ).access_tracking_byte = (bootState.frame_table f).access_tracking_byte) := by
  have aux : ∀ ps : page_swap_t Unit, ps.page_table 5 = { frame_table_idx := 5, valid := 1 } →
      (approx_least_recently_used nullStore 5 1 ps).1 = none ∧
      (approx_least_recently_used nullStore 5 1 ps).2.page_table = ps.page_table ∧
      ((approx_least_recently_used nullStore 5 1 ps).2.frame_table 5).access_bit = 128 ∧
      (∀ f, ((approx_least_recently_used nullStore 5 1 ps).2.frame_table f
          ).access_tracking_byte = (ps.frame_table f).access_tracking_byte) := by
    intro ps hpg
    have hv : (ps.page_table 5).valid ≠ 0 := by rw [hpg]; exact Nat.one_ne_zero
    have key := hit_reference nullStore SWAP_MODE.ALRU 5 1 ps (by norm_num) hv
    have k6 := key.2.2.2.2.2 (Or.inr (by norm_num))
    rw [hpg] at k6
    exact ⟨key.1, key.2.2.1, k6.1, k6.2.1⟩
  exact aux bootState (bootState_frame 5 (by norm_num)).2.2.2

/-- C5 (out-of-range reference). A reference to a page number of 2048 or more,
under either policy and at any clock value, returns no result and leaves the
whole state (page table, frame table, back store) as it was. -/
theorem out_of_range_reference (lib : BackStore W) (mode : SWAP_MODE)
    (page_number clock_time : Nat) (ps : page_swap_t W)
    (h : MAX_PAGE_TABLE_ENTRIES_SIZE ≤ page_number) :
    (page_swap lib mode page_number clock_time ps).1 = none ∧
    (page_swap lib mode page_number clock_time ps).2.page_table = ps.page_table ∧
    (page_swap lib mode page_number clock_time ps).2.frame_table = ps.frame_table ∧
    (page_swap lib mode page_number clock_time ps).2.bs = ps.bs := by
  rw [page_swap_out_of_range lib mode page_number clock_time ps (by simpa using h)]
  exact ⟨rfl, rfl, rfl, rfl⟩

/-- Witness of `out_of_range_reference`: page number 9999 at the decay tick 100. -/
theorem out_of_range_reference_witness :
    (least_frequently_used nullStore 9999 100 bootState).1 = none ∧
    (least_frequently_used nullStore 9999 100 bootState).2.page_table = bootState.page_table ∧
    (least_frequently_used nullStore 9999 100 bootState).2.frame_table = bootState.frame_table ∧
    (least_frequently_used nullStore 9999 100 bootState).2.bs = bootState.bs :=
  out_of_range_reference nullStore SWAP_MODE.LFU 9999 100 bootState (by decide)

/-- C6 (mid-swap I/O failure). For a reference under either policy, at any clock
value, to an in-range invalid page: if the eviction write fails, or it succeeds
and the fault-in read fails, the reference returns no result, the page table is
as before, and every frame keeps its owner, access bit and tracking byte (so no
binding is made and no decay step runs). Every frame but the victim keeps its
data as well; the whole frame table is as before when the write failed, and
also when the failed read left the victim's buffer as it was. -/
theorem io_failure_atomic (lib : BackStore W) (mode : SWAP_MODE) (page_number clock_time : Nat)
    (ps : page_swap_t W) (hp : page_number < 2048)
    (hv : (ps.page_table page_number).valid = 0)
    (hfail : (eviction_write lib mode ps).1 = false ∨
      ((eviction_write lib mode ps).1 = true ∧
        (fault_in_read lib mode page_number ps).1 = false)) :
    (page_swap lib mode page_number clock_time ps).1 = none ∧
    (page_swap lib mode page_number clock_time ps).2.page_table = ps.page_table ∧
    (∀ f, ((page_swap lib mode page_number clock_time ps).2.frame_table f).page_table_idx =
        (ps.frame_table f).page_table_idx ∧
      ((page_swap lib mode page_number clock_time ps).2.frame_table f).access_bit =
        (ps.frame_table f).access_bit ∧
      ((page_swap lib mode page_number clock_time ps).2.frame_table f).access_tracking_byte =
        (ps.frame_table f).access_tracking_byte) ∧
    (∀ f, f ≠ choose_victim_frame mode ps.frame_table →
      (page_swap lib mode page_number clock_time ps).2.frame_table f = ps.frame_table f) ∧
    ((eviction_write lib mode ps).1 = false ∨
      (fault_in_read lib mode page_number ps).2.1 =
        (ps.frame_table (choose_victim_frame mode ps.frame_table)).data →
      (page_swap lib mode page_number clock_time ps).2.frame_table = ps.frame_table) := by
  rcases hfail with hw | ⟨hw, hr⟩
  · rw [page_swap_write_failed lib mode page_number clock_time ps hp hv hw]
    exact ⟨rfl, rfl, fun f => ⟨rfl, rfl, rfl⟩, fun f _ => rfl, fun _ => rfl⟩
  · rw [page_swap_read_failed lib mode page_number clock_time ps hp hv hw hr]
    refine ⟨rfl, rfl, fun f => ?_, fun f hf => ?_, fun hsame => ?_⟩
    · by_cases hf : f = choose_victim_frame mode ps.frame_table
      · subst hf; simp
      · simp [Function.update_noteq hf]
    · simp [Function.update_noteq hf]
    · rcases hsame with h1 | h1
      · rw [hw] at h1; exact absurd h1 (by decide)
      · simp only [h1]
        exact Function.update_eq_self _ _

/-- Witness of `io_failure_atomic`: after the initialization on `lowReadStore 520`
the fault-in read of page 600 (block 608) fails, at the decay tick 100. -/
theorem io_failure_atomic_witness :
    (least_frequently_used (lowReadStore 520) 600 100 lowBootState).1 = none ∧
    (least_frequently_used (lowReadStore 520) 600 100 lowBootState).2.page_table =
      lowBootState.page_table ∧
    (least_frequently_used (lowReadStore 520) 600 100 lowBootState).2.frame_table =
      lowBootState.frame_table := by
  have h1 : ∀ (w : Unit) (b : Nat), ((lowReadStore 520).back_store_request w b).1 = true :=
    fun _ _ => rfl
  have h2 : ∀ (w : Unit) (b : Nat) (d : Block),
      ((lowReadStore 520).back_store_write w b d).1 = true := fun _ _ _ => rfl
  have h3 : ∀ (w : Unit) (b : Nat) (d : Block), b < 520 →
      ((lowReadStore 520).back_store_read w b d).1 = true := by
    intro w b d hb
    simp [lowReadStore, hb]
  have hok := initialize_tables_ok (lowReadStore 520) h1 h2 h3 ()
    { frame_table := fun _ => zero_frame, page_table := fun _ => zero_page, bs := () }
  have hreach : Reachable (lowReadStore 520) lowBootState := by
    unfold lowBootState
    exact Reachable.init () _ hok
  have hpage : lowBootState.page_table 600 = zero_page := by
    unfold lowBootState
    exact (initialize_tables_state (lowReadStore 520) () _ hok).2 600 (by norm_num)
  have aux : ∀ ps : page_swap_t Unit, Reachable (lowReadStore 520) ps →
      ps.page_table 600 = zero_page →
      (least_frequently_used (lowReadStore 520) 600 100 ps).1 = none ∧
      (least_frequently_used (lowReadStore 520) 600 100 ps).2.page_table = ps.page_table ∧
      (least_frequently_used (lowReadStore 520) 600 100 ps).2.frame_table = ps.frame_table := by
    intro ps hr hpg
    have hv : (ps.page_table 600).valid = 0 := by rw [hpg]; rfl
    have hown := ((Reachable.inv _ ps hr).frame_page _
      (choose_victim_frame_lt SWAP_MODE.LFU ps.frame_table)).1
    have hw : (eviction_write (lowReadStore 520) SWAP_MODE.LFU ps).1 = true := by
      unfold eviction_write write_to_back_store
      rw [if_pos (by simpa using hown)]
      rfl
    have hrd : (fault_in_read (lowReadStore 520) SWAP_MODE.LFU 600 ps).1 = false := by
      unfold fault_in_read read_from_back_store
      rfl
    have hbuf : (fault_in_read (lowReadStore 520) SWAP_MODE.LFU 600 ps).2.1 =
        (ps.frame_table (choose_victim_frame SWAP_MODE.LFU ps.frame_table)).data := by
      unfold fault_in_read read_from_back_store
      rfl
    have key := io_failure_atomic (lowReadStore 520) SWAP_MODE.LFU 600 100 ps (by norm_num) hv
      (Or.inr ⟨hw, hrd⟩)
    exact ⟨key.1, key.2.1, key.2.2.2.2 (Or.inr hbuf)⟩
  exact aux lowBootState hreach hpage

/-- C7 (approximate-LRU selection), evaluated on the reachable state
`skewState`: frame 1 is the lowest frame whose tracking byte (127) is the
minimum over the 512 frames, frame 0 holding 255, and
`choose_alru_victim_frame` returns 2. -/
theorem alru_victim_is_not_lowest_minimum :
    Reachable nullStore skewState ∧
    choose_alru_victim_frame skewState.frame_table = 2 ∧
    (skewState.frame_table 1).access_tracking_byte <
      (skewState.frame_table 0).access_tracking_byte ∧
    (∀ i, i < 512 → (skewState.frame_table 1).access_tracking_byte ≤
      (skewState.frame_table i).access_tracking_byte) := by
  refine ⟨skewState_reachable, ?_, ?_, fun i hi => ?_⟩
  · have e := choose_victim_frame_congr SWAP_MODE.ALRU skewState.frame_table skewTable
      skewState_bytes
    exact e.trans skewTable_alru
  · rw [skewState_bytes 1 (by norm_num), skewState_bytes 0 (by norm_num)]
    decide
  · rw [skewState_bytes 1 (by norm_num), skewState_bytes i hi]
    unfold skewTable
    by_cases h0 : i = 0
    · subst h0; decide
    · simp [h0]

/-- C8 (LFU selection), evaluated on the reachable state `skewState`: frame 1
is the lowest frame whose tracking byte has the minimal number of set bits
(seven, frame 0 having eight), and `choose_lfu_victim_frame` returns 2. -/
theorem lfu_victim_is_not_lowest_minimum :
    Reachable nullStore skewState ∧
    choose_lfu_victim_frame skewState.frame_table = 2 ∧
    bit_count (skewState.frame_table 1).access_tracking_byte <
      bit_count (skewState.frame_table 0).access_tracking_byte ∧
    (∀ i, i < 512 → bit_count (skewState.frame_table 1).access_tracking_byte ≤
      bit_count (skewState.frame_table i).access_tracking_byte) := by
  refine ⟨skewState_reachable, ?_, ?_, fun i hi => ?_⟩
  · have e := choose_victim_frame_congr SWAP_MODE.LFU skewState.frame_table skewTable
      skewState_bytes
    exact e.trans skewTable_lfu
  · rw [skewState_bytes 1 (by norm_num), skewState_bytes 0 (by norm_num)]
    decide
  · rw [skewState_bytes 1 (by norm_num), skewState_bytes i hi]
    unfold skewTable
    by_cases h0 : i = 0
    · subst h0; decide
    · simp only [h0, if_false]
      decide

/-- C9 (initialization postcondition). Run the initialization against any back
store, recording its calls. If every recorded request, write and read
succeeded, the initialization returns true; every page `i < 512` is valid and
bound to frame `i`; frame `i` is owned by page `i`, has tracking byte 255 and
access bit 128, and holds the block that the read of block `i + 8` returned;
every page from 512 to 2047 is invalid; and the record is: for `i = 0 .. 2047`
the request of block `i + 8` followed by the write of the dummy data to it,
and only then the reads of the blocks `8 .. 519`. The run against the library
itself, without the recording, returns true with the same tables. -/
theorem initialize_postcondition (lib : BackStore W) (created : W)
    (ps : page_swap_t (W × List BsEvent))
    (hok : ∀ e ∈ (initialize_tables (traced lib) (created, []) ps).2.bs.2, e.ok = true) :
    (initialize_tables (traced lib) (created, []) ps).1 = true ∧
    initialize_tables lib created (forget_trace ps) =
      (true, forget_trace (initialize_tables (traced lib) (created, []) ps).2) ∧
    (∀ i, i < 512 →
      (initialize_tables (traced lib) (created, []) ps).2.page_table i =
        { frame_table_idx := i, valid := 1 } ∧
      ((initialize_tables (traced lib) (created, []) ps).2.frame_table i).page_table_idx = i ∧
      ((initialize_tables (traced lib) (created, []) ps).2.frame_table i).access_tracking_byte =
        255 ∧
      ((initialize_tables (traced lib) (created, []) ps).2.frame_table i).access_bit = 128 ∧
      BsEvent.read (i + 8) true
        ((initialize_tables (traced lib) (created, []) ps).2.frame_table i).data ∈
          (initialize_tables (traced lib) (created, []) ps).2.bs.2) ∧
    (∀ i, 512 ≤ i → i < 2048 →
      ((initialize_tables (traced lib) (created, []) ps).2.page_table i).valid = 0) ∧
    (∀ i, i < 2048 →
      BsEvent.request (i + 8) true ∈
        (initialize_tables (traced lib) (created, []) ps).2.bs.2 ∧
      BsEvent.write (i + 8) placeholder true ∈
        (initialize_tables (traced lib) (created, []) ps).2.bs.2) ∧
    (initialize_tables (traced lib) (created, []) ps).2.bs.2 =
      fill_events 0 2048 ++
        load_events (initialize_tables (traced lib) (created, []) ps).2.frame_table 0 512 := by
  obtain ⟨evs, h1, _, h3, h4⟩ := initialize_tables_traced lib created ps
  have hret : (initialize_tables (traced lib) (created, []) ps).1 = true := by
    cases hb : (initialize_tables (traced lib) (created, []) ps).1
    · obtain ⟨e, he, hne⟩ := h4 hb
      rw [← h1] at he
      rw [hok e he] at hne
      exact absurd hne (by decide)
    · rfl
  have htr := h1.trans (h3 hret)
  obtain ⟨s1, s2⟩ := initialize_tables_state (traced lib) (created, []) ps hret
  have hplain : initialize_tables lib created (forget_trace ps) =
      (true, forget_trace (initialize_tables (traced lib) (created, []) ps).2) := by
    obtain ⟨f1, f2⟩ := initialize_tables_forget lib created ps
    rw [hret] at f1
    rw [f2, f1]
  refine ⟨hret, hplain, fun i hi => ?_, fun i hi _ => ?_, fun i hi => ?_, htr⟩
  · obtain ⟨e1, e2, e3, e4⟩ := s1 i hi
    refine ⟨e4, e1, e3, e2, ?_⟩
    rw [htr]
    exact List.mem_append_right _ (mem_load_events _ 0 512 i (Nat.zero_le i) (by omega))
  · rw [s2 i hi]; rfl
  · rw [htr]
    have hm := mem_fill_events 0 2048 i (Nat.zero_le i) (by omega)
    exact ⟨List.mem_append_left _ hm.1, List.mem_append_left _ hm.2⟩

/-- Witness of `initialize_postcondition`: the initialization on `nullStore`,
where every call succeeds. -/
theorem initialize_postcondition_witness :
    (initialize_tables (traced nullStore) ((), []) (zero_state ((), []))).1 = true ∧
    (initialize_tables (traced nullStore) ((), []) (zero_state ((), []))).2.page_table 511 =
      { frame_table_idx := 511, valid := 1 } ∧
    ((initialize_tables (traced nullStore) ((), []) (zero_state ((), []))).2.page_table 512).valid
      = 0 := by
  have h1 : ∀ (w : Unit × List BsEvent) (b : Nat),
      ((traced nullStore).back_store_request w b).1 = true := fun _ _ => rfl
  have h2 : ∀ (w : Unit × List BsEvent) (b : Nat) (d : Block),
      ((traced nullStore).back_store_write w b d).1 = true := fun _ _ _ => rfl
  have h3 : ∀ (w : Unit × List BsEvent) (b : Nat) (d : Block), b < 520 →
      ((traced nullStore).back_store_read w b d).1 = true := fun _ _ _ _ => rfl
  have hret := initialize_tables_ok (traced nullStore) h1 h2 h3 ((), []) (zero_state ((), []))
  have key := initialize_postcondition nullStore () (zero_state ((), []))
    (initialize_tables_traced_ok nullStore () _ hret)
  exact ⟨key.1, (key.2.2.1 511 (by norm_num)).1, key.2.2.2.1 512 (le_refl _) (by norm_num)⟩

/-- C10 (initialization failure). Run the initialization against any back
store, recording its calls. It returns false exactly when some recorded call
failed, and every recorded call is a request of a block `i + 8` with
`i < 2048`, a write of the dummy data to such a block, or a read of a block
`i + 8` with `i < 512`. It returns true exactly when the record is the complete
one: the 2048 requests and 2048 writes, then the 512 reads, all successful.
The run against the library itself, without the recording, returns the same
value. -/
theorem initialize_failure (lib : BackStore W) (created : W)
    (ps : page_swap_t (W × List BsEvent)) :
    (initialize_tables lib created (forget_trace ps)).1 =
      (initialize_tables (traced lib) (created, []) ps).1 ∧
    ((initialize_tables (traced lib) (created, []) ps).1 = false ↔
      ∃ e ∈ (initialize_tables (traced lib) (created, []) ps).2.bs.2, e.ok = false) ∧
    (∀ e ∈ (initialize_tables (traced lib) (created, []) ps).2.bs.2, init_call e) ∧
    ((initialize_tables (traced lib) (created, []) ps).1 = true ↔
      (initialize_tables (traced lib) (created, []) ps).2.bs.2 =
        fill_events 0 2048 ++
          load_events (initialize_tables (traced lib) (created, []) ps).2.frame_table 0 512) := by
  obtain ⟨evs, h1, h2, h3, h4⟩ := initialize_tables_traced lib created ps
  have hno : (initialize_tables (traced lib) (created, []) ps).1 = true →
      ¬ ∃ e ∈ (initialize_tables (traced lib) (created, []) ps).2.bs.2, e.ok = false := by
    rintro hret ⟨e, he, hne⟩
    rw [initialize_tables_traced_ok lib created ps hret e he] at hne
    exact absurd hne (by decide)
  refine ⟨(initialize_tables_forget lib created ps).1.symm, ⟨fun h => ?_, fun h => ?_⟩, ?_,
    ⟨fun h => h1.trans (h3 h), fun h => ?_⟩⟩
  · rw [h1]; exact h4 h
  · cases hb : (initialize_tables (traced lib) (created, []) ps).1
    · rfl
    · exact absurd h (hno hb)
  · rw [h1]; exact h2
  · cases hb : (initialize_tables (traced lib) (created, []) ps).1
    · obtain ⟨e, he, hne⟩ := h4 hb
      rw [← h1, h] at he
      have hok : e.ok = true := by
        rcases List.mem_append.mp he with he | he
        · exact fill_events_ok _ _ e he
        · exact load_events_ok _ _ _ e he
      rw [hok] at hne
      exact absurd hne (by decide)
    · rfl

/-! ## Bytes -/

theorem or_128_of_lt : ∀ x, x < 128 → (x ||| 128 = x + 128) := by decide

theorem shiftRight_one_lt (b : Nat) (hb : b < 256) : b >>> 1 < 128 := by
  rw [Nat.shiftRight_eq_div_pow]; omega

theorem shiftRight_or (x y k : Nat) : (x ||| y) >>> k = (x >>> k) ||| (y >>> k) := by
  apply Nat.eq_of_testBit_eq
  intro i
  simp [Nat.testBit_shiftRight, Nat.testBit_or]

theorem or_128_mod (x : Nat) (hx : x < 128) : (x ||| 128) % 128 = x := by
  rw [or_128_of_lt x hx]; omega

theorem or_128_and (x : Nat) (hx : x < 128) : (x ||| 128) &&& 128 = 128 := by
  revert x; decide

/-! ## The loop of `bit_count` -/

theorem bit_count_loop_more (k : Nat) :
    ∀ (n value count : Nat), clear_lowest^[n] value = 0 →
      bit_count_loop (n + k) value count = bit_count_loop n value count := by
  intro n
  induction n with
  | zero =>
    intro value count h
    simp only [Function.iterate_zero, id_eq] at h
    subst h
    cases k <;> simp [bit_count_loop]
  | succ n ih =>
    intro value count h
    have e : n + 1 + k = (n + k) + 1 := by omega
    rw [e]
    unfold bit_count_loop
    by_cases hv : value = 0
    · simp [hv]
    · simp only [ne_eq, hv, not_false_eq_true, if_true]
      exact ih _ _ (by simpa [Function.iterate_succ, clear_lowest] using h)

set_option maxRecDepth 1000000 in
theorem byte_bit_count : ∀ v, v < 256 →
    (bit_count v = set_bits v ∧ bit_count_loop 8 v 0 = set_bits v ∧
      clear_lowest^[set_bits v] v = 0 ∧ clear_lowest^[8] v = 0 ∧ set_bits v ≤ 8 ∧
      (set_bits v = 0 ↔ v = 0) ∧ (set_bits v = 8 ↔ v = 255)) := by
  decide

/-! ## Repeated decay of one frame -/

theorem access_update_iterate_succ (entries : frame_table_t) (f : Nat) (hf : f < 512) (k : Nat) :
    (access_update^[k + 1] entries) f = decay_frame ((access_update^[k] entries) f) := by
  rw [Function.iterate_succ_apply', access_update_apply, if_pos hf]

theorem untouched_decay (entries : frame_table_t) (f : Nat) (hf : f < 512)
    (h0 : (entries f).access_bit = 0) :
    ∀ k, ((access_update^[k] entries) f).access_tracking_byte =
        (entries f).access_tracking_byte >>> k ∧
      ((access_update^[k] entries) f).access_bit = 0 := by
  intro k
  induction k with
  | zero => exact ⟨rfl, h0⟩
  | succ k ih =>
    rw [access_update_iterate_succ entries f hf k]
    refine ⟨?_, rfl⟩
    rw [decay_frame_byte, ih.1, ih.2, Nat.or_zero, ← Nat.shiftRight_add]

theorem touched_decay (entries : frame_table_t) (f : Nat) (hf : f < 512)
    (h1 : (entries f).access_bit = 128) (k : Nat) :
    ((access_update^[k + 1] entries) f).access_tracking_byte =
      ((entries f).access_tracking_byte >>> (k + 1)) ||| (128 >>> k) := by
  rw [Function.iterate_succ_apply]
  have hz : (access_update entries f).access_bit = 0 := by
    rw [access_update_apply, if_pos hf]; rfl
  rw [(untouched_decay (access_update entries) f hf hz k).1, access_update_apply, if_pos hf,
    decay_frame_byte, h1, shiftRight_or, ← Nat.shiftRight_add, Nat.add_comm 1 k]

theorem shiftRight_byte_zero (b k : Nat) (hb : b < 256) (hk : 8 ≤ k) : b >>> k = 0 := by
  rw [Nat.shiftRight_eq_div_pow]
  apply Nat.div_eq_of_lt
  calc b < 2 ^ 8 := hb
    _ ≤ 2 ^ k := Nat.pow_le_pow_right (by norm_num) hk

/-! ## The victim scan, exactly -/

theorem alru_scan_eq (entries : frame_table_t) :
    ∀ (n i fp min victim : Nat),
      alru_scan entries n i fp min victim =
        victim_scan (fun j => score SWAP_MODE.ALRU (entries j)) n i fp min victim := by
  intro n
  induction n with
  | zero => intro i fp min victim; rfl
  | succ n ih =>
    intro i fp min victim
    unfold alru_scan victim_scan
    rw [ih, ih]
    rfl

theorem lfu_scan_eq (entries : frame_table_t) :
    ∀ (n i fp min victim : Nat),
      lfu_scan entries n i fp min victim =
        victim_scan (fun j => score SWAP_MODE.LFU (entries j)) n i fp min victim := by
  intro n
  induction n with
  | zero => intro i fp min victim; rfl
  | succ n ih =>
    intro i fp min victim
    unfold lfu_scan victim_scan
    rw [ih, ih]
    rfl

theorem choose_victim_frame_eq (mode : SWAP_MODE) (entries : frame_table_t) :
    choose_victim_frame mode entries =
      victim_scan (fun j => score mode (entries j)) 511 1 0 (score mode (entries 0)) 0 := by
  cases mode
  · exact alru_scan_eq entries _ _ _ _ _
  · exact lfu_scan_eq entries _ _ _ _ _

theorem victim_scan_keep (s : Nat → Nat) :
    ∀ (n i fp min victim : Nat), (∀ k, fp ≤ k → k < fp + n → min ≤ s k) →
      victim_scan s n i fp min victim = victim := by
  intro n
  induction n with
  | zero => intro i fp min victim _; rfl
  | succ n ih =>
    intro i fp min victim h
    unfold victim_scan
    rw [if_neg (by have := h fp (le_refl _) (by omega); omega)]
    exact ih _ _ _ _ (fun k h1 h2 => h k (by omega) (by omega))

theorem victim_scan_first_min (s : Nat → Nat) :
    ∀ (n fp min victim j : Nat), fp ≤ j → j < fp + n → s j < min →
      (∀ k, fp ≤ k → k < fp + n → s j ≤ s k) → (∀ k, fp ≤ k → k < j → s j < s k) →
      victim_scan s n (fp + 1) fp min victim = j + 1 := by
  intro n
  induction n with
  | zero => intro fp min victim j h1 h2; omega
  | succ n ih =>
    intro fp min victim j h1 h2 hlt hmin hfirst
    unfold victim_scan
    by_cases hj : j = fp
    · subst hj
      rw [if_pos hlt]
      exact victim_scan_keep s n _ _ _ _ (fun k hk1 hk2 => hmin k (by omega) (by omega))
    · have hfp : s j < s fp := hfirst fp (le_refl _) (by omega)
      by_cases hc : s fp < min
      · rw [if_pos hc]
        exact ih (fp + 1) (s fp) (fp + 1) j (by omega) (by omega) hfp
          (fun k hk1 hk2 => hmin k (by omega) (by omega))
          (fun k hk1 hk2 => hfirst k (by omega) hk2)
      · rw [if_neg hc]
        exact ih (fp + 1) min victim j (by omega) (by omega) hlt
          (fun k hk1 hk2 => hmin k (by omega) (by omega))
          (fun k hk1 hk2 => hfirst k (by omega) hk2)

theorem victim_scan_congr (s t : Nat → Nat) :
    ∀ (n i fp min victim : Nat), (∀ k, fp ≤ k → k < fp + n → s k = t k) →
      victim_scan s n i fp min victim = victim_scan t n i fp min victim := by
  intro n
  induction n with
  | zero => intro i fp min victim _; rfl
  | succ n ih =>
    intro i fp min victim h
    unfold victim_scan
    rw [h fp (le_refl _) (by omega),
      ih (i + 1) (fp + 1) _ i (fun k h1 h2 => h k (by omega) (by omega)),
      ih (i + 1) (fp + 1) min victim (fun k h1 h2 => h k (by omega) (by omega))]

/-- Among finitely many scores there is a lowest index holding the least one. -/
theorem exists_first_min (s : Nat → Nat) (n : Nat) (hn : 0 < n) :
    ∃ j, j < n ∧ (∀ k, k < n → s j ≤ s k) ∧ (∀ k, k < j → s j < s k) := by
  induction n with
  | zero => omega
  | succ n ih =>
    by_cases h0 : n = 0
    · subst h0
      refine ⟨0, by omega, fun k hk => ?_, fun k hk => by omega⟩
      have hk0 : k = 0 := by omega
      subst hk0
      exact le_refl _
    · obtain ⟨j, hj, hmin, hfirst⟩ := ih (by omega)
      by_cases hc : s n < s j
      · refine ⟨n, by omega, fun k hk => ?_, fun k hk => ?_⟩
        · by_cases hkn : k = n
          · subst hkn; exact le_refl _
          · have := hmin k (by omega); omega
        · have := hmin k hk; omega
      · refine ⟨j, by omega, fun k hk => ?_, hfirst⟩
        by_cases hkn : k = n
        · subst hkn; omega
        · exact hmin k (by omega)

/-! ## Completed faults, sequences of references -/

theorem page_swap_some (lib : BackStore W) (mode : SWAP_MODE) (page_number clock_time : Nat)
    (ps : page_swap_t W) (res : page_request_result_t)
    (h : (page_swap lib mode page_number clock_time ps).1 = some res) :
    page_number < 2048 ∧ (ps.page_table page_number).valid = 0 ∧
      (eviction_write lib mode ps).1 = true ∧
      (fault_in_read lib mode page_number ps).1 = true := by
  by_cases hp : page_number < 2048
  · by_cases hv : (ps.page_table page_number).valid = 0
    · cases hw : (eviction_write lib mode ps).1
      · rw [page_swap_write_failed lib mode page_number clock_time ps hp hv hw] at h
        exact absurd h (by simp)
      · cases hr : (fault_in_read lib mode page_number ps).1
        · rw [page_swap_read_failed lib mode page_number clock_time ps hp hv hw hr] at h
          exact absurd h (by simp)
        · exact ⟨hp, hv, rfl, rfl⟩
    · rw [page_swap_hit lib mode page_number clock_time ps hp hv] at h
      exact absurd h (by simp)
  · rw [page_swap_out_of_range lib mode page_number clock_time ps (by omega)] at h
    exact absurd h (by simp)

theorem Reachable.step (lib : BackStore W) (mode : SWAP_MODE) (page_number clock_time : Nat)
    (ps : page_swap_t W) (h : Reachable lib ps) :
    Reachable lib (page_swap lib mode page_number clock_time ps).2 := by
  cases mode
  · exact Reachable.alru page_number clock_time ps h
  · exact Reachable.lfu page_number clock_time ps h

theorem Reachable.after_refs (lib : BackStore W) :
    ∀ (refs : List reference) (ps : page_swap_t W), Reachable lib ps →
      Reachable lib (run_refs lib refs ps) := by
  intro refs
  induction refs with
  | nil => intro ps h; exact h
  | cons r rs ih =>
    intro ps h
    exact ih _ (h.step lib r.mode r.page_number r.clock_time ps)

/-! ## Faults on the map store -/

theorem mapStore_eviction_write (mode : SWAP_MODE) (ps : page_swap_t (Nat → Block))
    (hI : TablesInv ps) :
    eviction_write mapStore mode ps =
      (true, Function.update ps.bs
        ((ps.frame_table (choose_victim_frame mode ps.frame_table)).page_table_idx + 8)
        (ps.frame_table (choose_victim_frame mode ps.frame_table)).data) := by
  have hq := (hI.frame_page _ (choose_victim_frame_lt mode ps.frame_table)).1
  unfold eviction_write write_to_back_store
  rw [if_pos (by simpa using hq)]
  rfl

theorem mapStore_fault_in_read (mode : SWAP_MODE) (page_number : Nat)
    (ps : page_swap_t (Nat → Block)) (hI : TablesInv ps) (hp : page_number < 2048) :
    fault_in_read mapStore mode page_number ps =
      (true,
        Function.update ps.bs
          ((ps.frame_table (choose_victim_frame mode ps.frame_table)).page_table_idx + 8)
          (ps.frame_table (choose_victim_frame mode ps.frame_table)).data (page_number + 8),
        Function.update ps.bs
          ((ps.frame_table (choose_victim_frame mode ps.frame_table)).page_table_idx + 8)
          (ps.frame_table (choose_victim_frame mode ps.frame_table)).data) := by
  unfold fault_in_read
  rw [mapStore_eviction_write mode ps hI]
  unfold read_from_back_store
  rw [if_pos (by simpa using hp)]
  rfl

/-- A fault on the map store always completes; its effect on the requested
page, on the store and on the victim frame's data. -/
theorem mapStore_fault (mode : SWAP_MODE) (page_number clock_time : Nat)
    (ps : page_swap_t (Nat → Block)) (hI : TablesInv ps) (hp : page_number < 2048)
    (hv : (ps.page_table page_number).valid = 0) :
    (page_swap mapStore mode page_number clock_time ps).1 =
      some { page_requested := page_number
             frame_replaced := choose_victim_frame mode ps.frame_table
             page_replaced :=
               (ps.frame_table (choose_victim_frame mode ps.frame_table)).page_table_idx } ∧
    (page_swap mapStore mode page_number clock_time ps).2.page_table page_number =
      { frame_table_idx := choose_victim_frame mode ps.frame_table, valid := 1 } ∧
    ((page_swap mapStore mode page_number clock_time ps).2.page_table
      (ps.frame_table (choose_victim_frame mode ps.frame_table)).page_table_idx).valid = 0 ∧
    (∀ q, q ≠ page_number →
      q ≠ (ps.frame_table (choose_victim_frame mode ps.frame_table)).page_table_idx →
      (page_swap mapStore mode page_number clock_time ps).2.page_table q = ps.page_table q) ∧
    (page_swap mapStore mode page_number clock_time ps).2.bs =
      Function.update ps.bs
        ((ps.frame_table (choose_victim_frame mode ps.frame_table)).page_table_idx + 8)
        (ps.frame_table (choose_victim_frame mode ps.frame_table)).data ∧
    ((page_swap mapStore mode page_number clock_time ps).2.frame_table
      (choose_victim_frame mode ps.frame_table)).data =
        Function.update ps.bs
          ((ps.frame_table (choose_victim_frame mode ps.frame_table)).page_table_idx + 8)
          (ps.frame_table (choose_victim_frame mode ps.frame_table)).data (page_number + 8) := by
  have hw : (eviction_write mapStore mode ps).1 = true := by
    rw [mapStore_eviction_write mode ps hI]
  have hr : (fault_in_read mapStore mode page_number ps).1 = true := by
    rw [mapStore_fault_in_read mode page_number ps hI hp]
  obtain ⟨_, hqv, _⟩ := hI.frame_page _ (choose_victim_frame_lt mode ps.frame_table)
  have hqp : (ps.frame_table (choose_victim_frame mode ps.frame_table)).page_table_idx ≠
      page_number := by
    intro e; rw [e] at hqv; exact hqv hv
  rw [page_swap_fault mapStore mode page_number clock_time ps hp hv hw hr,
    mapStore_fault_in_read mode page_number ps hI hp]
  refine ⟨rfl, ?_, ?_, ?_, rfl, ?_⟩
  · simp only [Function.update_apply, if_neg (Ne.symm hqp), if_true]
  · simp only [Function.update_apply, if_true]
  · intro q h1 h2
    simp only [Function.update_apply, if_neg h1, if_neg h2]
  · simp only [mark_and_decay_data, Function.update_apply, if_true]

/-- While page `p` stays out of memory and is not referenced, its block keeps
what the eviction wrote. -/
theorem mapStore_keeps_block (p : Nat) (d : Block) (mode : SWAP_MODE)
    (page_number clock_time : Nat) (ps : page_swap_t (Nat → Block)) (hI : TablesInv ps)
    (hpv : (ps.page_table p).valid = 0) (hd : ps.bs (p + 8) = d) (hne : page_number ≠ p) :
    ((page_swap mapStore mode page_number clock_time ps).2.page_table p).valid = 0 ∧
    (page_swap mapStore mode page_number clock_time ps).2.bs (p + 8) = d := by
  by_cases hx : page_number < 2048
  · by_cases hv : (ps.page_table page_number).valid = 0
    · obtain ⟨_, _, _, h4, h5, _⟩ := mapStore_fault mode page_number clock_time ps hI hx hv
      obtain ⟨_, hqv, _⟩ := hI.frame_page _ (choose_victim_frame_lt mode ps.frame_table)
      have hpq : p ≠ (ps.frame_table (choose_victim_frame mode ps.frame_table)).page_table_idx := by
        intro e; rw [← e] at hqv; exact hqv hpv
      rw [h4 p (Ne.symm hne) hpq, h5]
      refine ⟨hpv, ?_⟩
      rw [Function.update_noteq (by omega)]
      exact hd
    · rw [page_swap_hit mapStore mode page_number clock_time ps hx hv]
      exact ⟨hpv, hd⟩
  · rw [page_swap_out_of_range mapStore mode page_number clock_time ps (by omega)]
    exact ⟨hpv, hd⟩

theorem mapStore_run_keeps_block (p : Nat) (d : Block) :
    ∀ (refs : List reference) (ps : page_swap_t (Nat → Block)), TablesInv ps →
      (ps.page_table p).valid = 0 → ps.bs (p + 8) = d →
      (∀ x ∈ refs, x.page_number ≠ p) →
      TablesInv (run_refs mapStore refs ps) ∧
      ((run_refs mapStore refs ps).page_table p).valid = 0 ∧
      (run_refs mapStore refs ps).bs (p + 8) = d := by
  intro refs
  induction refs with
  | nil => intro ps hI hpv hd _; exact ⟨hI, hpv, hd⟩
  | cons r rs ih =>
    intro ps hI hpv hd hne
    obtain ⟨k1, k2⟩ := mapStore_keeps_block p d r.mode r.page_number r.clock_time ps hI hpv hd
      (hne r (List.mem_cons_self _ _))
    exact ih _ (hI.page_swap mapStore r.mode r.page_number r.clock_time ps) k1 k2
      (fun x hx => hne x (List.mem_cons_of_mem _ hx))

/-- C11 (evict/load round trip). On the map store, where every write and read
succeeds: in a reachable state let page `p` be resident in a frame holding
data `d`. If a fault (a reference to an invalid page `r`) picks that frame as
victim, page `p` is evicted; after any sequence of references to pages other
than `p`, a reference to `p` faults `p` in, and the frame bound to `p`
afterwards holds exactly `d`. The eviction write and the fault-in read both go
to block `page + 8`, which is injective in the page and never equal to it. -/
theorem evict_load_round_trip (ps : page_swap_t (Nat → Block)) (h : Reachable mapStore ps)
    (p r : Nat) (mode1 : SWAP_MODE) (c1 : Nat) (refs : List reference) (mode3 : SWAP_MODE)
    (c3 : Nat) (hp : p < 2048) (hpv : (ps.page_table p).valid ≠ 0) (hr : r < 2048)
    (hrv : (ps.page_table r).valid = 0)
    (hvic : choose_victim_frame mode1 ps.frame_table = (ps.page_table p).frame_table_idx)
    (hrefs : ∀ x ∈ refs, x.page_number ≠ p) :
    (page_swap mapStore mode1 r c1 ps).1 =
      some { page_requested := r, frame_replaced := (ps.page_table p).frame_table_idx,
             page_replaced := p } ∧
    ((page_swap mapStore mode1 r c1 ps).2.page_table p).valid = 0 ∧
    (∃ res, (page_swap mapStore mode3 p c3
        (run_refs mapStore refs (page_swap mapStore mode1 r c1 ps).2)).1 = some res ∧
      res.page_requested = p) ∧
    ((page_swap mapStore mode3 p c3
        (run_refs mapStore refs (page_swap mapStore mode1 r c1 ps).2)).2.page_table p).valid
      = 1 ∧
    ((page_swap mapStore mode3 p c3
        (run_refs mapStore refs (page_swap mapStore mode1 r c1 ps).2)).2.frame_table
      ((page_swap mapStore mode3 p c3
        (run_refs mapStore refs (page_swap mapStore mode1 r c1 ps).2)).2.page_table p
        ).frame_table_idx).data =
      (ps.frame_table (ps.page_table p).frame_table_idx).data ∧
    (∀ (W' : Type) (lib : BackStore W') (w : W') (data : Block) (page : Nat), page < 2048 →
      write_to_back_store lib w data page = lib.back_store_write w (page + 8) data ∧
      read_from_back_store lib w data page = lib.back_store_read w (page + 8) data) ∧
    Function.Injective BS_PAGE_MAP ∧ (∀ x, BS_PAGE_MAP x ≠ x) := by
  have hI := Reachable.inv mapStore ps h
  have hown : (ps.frame_table (ps.page_table p).frame_table_idx).page_table_idx = p :=
    hI.page_frame p hp hpv
  obtain ⟨a1, _, a3, _, a5, _⟩ := mapStore_fault mode1 r c1 ps hI hr hrv
  rw [hvic, hown] at a1 a3 a5
  have hI1 := hI.page_swap mapStore mode1 r c1 ps
  have hd1 : (page_swap mapStore mode1 r c1 ps).2.bs (p + 8) =
      (ps.frame_table (ps.page_table p).frame_table_idx).data := by
    rw [a5, Function.update_same]
  obtain ⟨hI2, hv2, hd2⟩ := mapStore_run_keeps_block p _ refs _ hI1 a3 hd1 hrefs
  obtain ⟨b1, b2, _, _, _, b6⟩ := mapStore_fault mode3 p c3 _ hI2 hp hv2
  obtain ⟨_, hqv, _⟩ := hI2.frame_page _ (choose_victim_frame_lt mode3
    (run_refs mapStore refs (page_swap mapStore mode1 r c1 ps).2).frame_table)
  have hqp : ((run_refs mapStore refs (page_swap mapStore mode1 r c1 ps).2).frame_table
      (choose_victim_frame mode3
        (run_refs mapStore refs (page_swap mapStore mode1 r c1 ps).2).frame_table)
      ).page_table_idx + 8 ≠ p + 8 := by
    intro e
    have e2 := Nat.add_right_cancel e
    rw [e2] at hqv
    exact hqv hv2
  refine ⟨a1, a3, ⟨_, b1, rfl⟩, ?_, ?_, ?_, ?_, ?_⟩
  · rw [b2]
  · rw [b2]
    simp only
    rw [b6, Function.update_noteq (Ne.symm hqp), hd2]
  · intro W' lib w data page hpage
    unfold write_to_back_store read_from_back_store
    rw [if_pos (by simpa using hpage), if_pos (by simpa using hpage)]
    exact ⟨rfl, rfl⟩
  · intro a b e
    simp only [BS_PAGE_MAP] at e
    omega
  · intro x
    simp only [BS_PAGE_MAP]
    omega

/-- Witness of `evict_load_round_trip`: after the initialization on the map
store, page 600 at clock 1 evicts page 0; pages 5 and 9999 are referenced;
then page 0 comes back with the data its frame held. -/
theorem evict_load_round_trip_witness :
    ((page_swap mapStore SWAP_MODE.LFU 0 101
        (run_refs mapStore
          [{ mode := SWAP_MODE.LFU, page_number := 5, clock_time := 100 },
           { mode := SWAP_MODE.ALRU, page_number := 9999, clock_time := 7 }]
          (page_swap mapStore SWAP_MODE.ALRU 600 1 mapBootState).2)).2.frame_table
      ((page_swap mapStore SWAP_MODE.LFU 0 101
        (run_refs mapStore
          [{ mode := SWAP_MODE.LFU, page_number := 5, clock_time := 100 },
           { mode := SWAP_MODE.ALRU, page_number := 9999, clock_time := 7 }]
          (page_swap mapStore SWAP_MODE.ALRU 600 1 mapBootState).2)).2.page_table 0
        ).frame_table_idx).data =
      (mapBootState.frame_table (mapBootState.page_table 0).frame_table_idx).data := by
  have h1 : ∀ (w : Nat → Block) (b : Nat), (mapStore.back_store_request w b).1 = true :=
    fun _ _ => rfl
  have h2 : ∀ (w : Nat → Block) (b : Nat) (d : Block),
      (mapStore.back_store_write w b d).1 = true := fun _ _ _ => rfl
  have h3 : ∀ (w : Nat → Block) (b : Nat) (d : Block), b < 520 →
      (mapStore.back_store_read w b d).1 = true := fun _ _ _ _ => rfl
  have hok := initialize_tables_ok mapStore h1 h2 h3 (fun _ => []) (zero_state (fun _ => []))
  have hreach : Reachable mapStore mapBootState := by
    unfold mapBootState
    exact Reachable.init _ _ hok
  have hst : (∀ j, j < 512 →
      (mapBootState.frame_table j).page_table_idx = j ∧
      (mapBootState.frame_table j).access_bit = 128 ∧
      (mapBootState.frame_table j).access_tracking_byte = 255 ∧
      mapBootState.page_table j = { frame_table_idx := j, valid := 1 }) ∧
      (∀ j, 512 ≤ j → mapBootState.page_table j = zero_page) := by
    unfold mapBootState
    exact initialize_tables_state mapStore _ _ hok
  have aux : ∀ ps : page_swap_t (Nat → Block), Reachable mapStore ps →
      ps.page_table 0 = { frame_table_idx := 0, valid := 1 } →
      ps.page_table 600 = zero_page →
      choose_victim_frame SWAP_MODE.ALRU ps.frame_table = 0 →
      ((page_swap mapStore SWAP_MODE.LFU 0 101
          (run_refs mapStore
            [{ mode := SWAP_MODE.LFU, page_number := 5, clock_time := 100 },
             { mode := SWAP_MODE.ALRU, page_number := 9999, clock_time := 7 }]
            (page_swap mapStore SWAP_MODE.ALRU 600 1 ps).2)).2.frame_table
        ((page_swap mapStore SWAP_MODE.LFU 0 101
          (run_refs mapStore
            [{ mode := SWAP_MODE.LFU, page_number := 5, clock_time := 100 },
             { mode := SWAP_MODE.ALRU, page_number := 9999, clock_time := 7 }]
            (page_swap mapStore SWAP_MODE.ALRU 600 1 ps).2)).2.page_table 0
          ).frame_table_idx).data =
        (ps.frame_table (ps.page_table 0).frame_table_idx).data := by
    intro ps hr hp0 hp600 hvic
    have key := evict_load_round_trip ps hr 0 600 SWAP_MODE.ALRU 1
      [{ mode := SWAP_MODE.LFU, page_number := 5, clock_time := 100 },
       { mode := SWAP_MODE.ALRU, page_number := 9999, clock_time := 7 }]
      SWAP_MODE.LFU 101 (by norm_num) (by rw [hp0]; exact Nat.one_ne_zero) (by norm_num)
      (by rw [hp600]; rfl) (by rw [hvic, hp0])
      (by
        intro x hx
        simp only [List.mem_cons, List.mem_singleton, List.not_mem_nil, or_false] at hx
        rcases hx with rfl | rfl <;> decide)
    exact key.2.2.2.2.1
  exact aux mapBootState hreach (hst.1 0 (by norm_num)).2.2.2 (hst.2 600 (by norm_num))
    (choose_victim_frame_all_equal SWAP_MODE.ALRU _ 255 (fun j hj => (hst.1 j hj).2.2.1))

/-- C12 (decay step). On a state whose frames all have access bit 0 or 128,
`access_update` leaves every frame with tracking byte `(old >> 1) | 0x80` if
its access bit was 128 and `old >> 1` if it was 0 (a value below 128, the top
bit clear, for a byte `old`), clears every access bit, and changes no owner,
no frame data, no page-table entry and nothing of the back store. -/
theorem decay_step (ps : page_swap_t W)
    (hbit : ∀ f, f < 512 →
      (ps.frame_table f).access_bit = 0 ∨ (ps.frame_table f).access_bit = 128) :
    (∀ f, f < 512 →
      ((access_update_global ps).frame_table f).access_tracking_byte =
        (if (ps.frame_table f).access_bit = 128 then
          ((ps.frame_table f).access_tracking_byte >>> 1) ||| 128
        else (ps.frame_table f).access_tracking_byte >>> 1) ∧
      ((ps.frame_table f).access_bit = 0 → (ps.frame_table f).access_tracking_byte < 256 →
        ((access_update_global ps).frame_table f).access_tracking_byte < 128) ∧
      ((access_update_global ps).frame_table f).access_bit = 0 ∧
      ((access_update_global ps).frame_table f).page_table_idx =
        (ps.frame_table f).page_table_idx ∧
      ((access_update_global ps).frame_table f).data = (ps.frame_table f).data) ∧
    (access_update_global ps).page_table = ps.page_table ∧
    (access_update_global ps).bs = ps.bs := by
  refine ⟨fun f hf => ?_, by simp only [access_update_global],
    by simp only [access_update_global]⟩
  have e : (access_update_global ps).frame_table f = decay_frame (ps.frame_table f) := by
    simp only [access_update_global, access_update_apply, if_pos hf]
  rw [e]
  refine ⟨?_, fun h0 hb => ?_, rfl, rfl, rfl⟩
  · rw [decay_frame_byte]
    rcases hbit f hf with h0 | h1
    · rw [h0, if_neg (by decide), Nat.or_zero]
    · rw [h1, if_pos rfl]
  · rw [decay_frame_byte, h0, Nat.or_zero]
    exact shiftRight_one_lt _ hb

/-- Witness of `decay_step`: the state right after the initialization, where
every access bit is 128 and every tracking byte is 255. -/
theorem decay_step_witness :
    ((access_update_global bootState).frame_table 7).access_tracking_byte = 255 ∧
    ((access_update_global bootState).frame_table 7).access_bit = 0 := by
  have key := (decay_step bootState (fun f hf => Or.inr (bootState_frame f hf).2.1)).1 7
    (by norm_num)
  refine ⟨?_, key.2.2.1⟩
  rw [key.1, (bootState_frame 7 (by norm_num)).2.1, (bootState_frame 7 (by norm_num)).2.2.1]
  decide

/-- The frame table right after a completed reference, with the frame bound to
the page named. -/
theorem completed_reference_frames (lib : BackStore W) (mode : SWAP_MODE)
    (page_number clock_time : Nat) (ps : page_swap_t W) (hI : TablesInv ps)
    (hp : page_number < 2048)
    (hdone : (ps.page_table page_number).valid ≠ 0 ∨
      ((ps.page_table page_number).valid = 0 ∧ (eviction_write lib mode ps).1 = true ∧
        (fault_in_read lib mode page_number ps).1 = true)) :
    ((page_swap lib mode page_number clock_time ps).2.page_table page_number).frame_table_idx
        < 512 ∧
    ∃ bound : frame_table_t,
      (∀ f, (bound f).access_tracking_byte = (ps.frame_table f).access_tracking_byte ∧
        (bound f).access_bit = (ps.frame_table f).access_bit) ∧
      (∀ f, f ≠ ((page_swap lib mode page_number clock_time ps).2.page_table
        page_number).frame_table_idx → bound f = ps.frame_table f) ∧
      (page_swap lib mode page_number clock_time ps).2.frame_table =
        mark_and_decay clock_time
          ((page_swap lib mode page_number clock_time ps).2.page_table
            page_number).frame_table_idx bound := by
  rcases hdone with hv | ⟨hv, hw, hr⟩
  · rw [page_swap_hit lib mode page_number clock_time ps hp hv]
    exact ⟨hI.idx_lt page_number hp, ps.frame_table, fun f => ⟨rfl, rfl⟩, fun f _ => rfl, rfl⟩
  · have hlt := choose_victim_frame_lt mode ps.frame_table
    obtain ⟨_, hqv, _⟩ := hI.frame_page _ hlt
    have hqp : (ps.frame_table (choose_victim_frame mode ps.frame_table)).page_table_idx ≠
        page_number := by
      intro e; rw [e] at hqv; exact hqv hv
    rw [page_swap_fault lib mode page_number clock_time ps hp hv hw hr]
    have hidx : (Function.update
        (Function.update ps.page_table page_number
          { frame_table_idx := choose_victim_frame mode ps.frame_table, valid := 1 })
        (ps.frame_table (choose_victim_frame mode ps.frame_table)).page_table_idx
        { (Function.update ps.page_table page_number
            { frame_table_idx := choose_victim_frame mode ps.frame_table, valid := 1 })
            (ps.frame_table (choose_victim_frame mode ps.frame_table)).page_table_idx with
          valid := 0 } page_number).frame_table_idx = choose_victim_frame mode ps.frame_table := by
      simp only [Function.update_apply, if_neg (Ne.symm hqp), if_true]
    simp only [hidx]
    refine ⟨hlt, _, fun f => ?_, fun f hf => ?_, rfl⟩
    · by_cases hf : f = choose_victim_frame mode ps.frame_table
      · subst hf; simp
      · simp [Function.update_noteq hf]
    · simp [Function.update_noteq hf]

/-- C13 (decay trigger). Let a reference to an in-range page complete in a
reachable state (a hit, or a fault whose write and read succeed), and let
`fidx` be the frame bound to the page afterwards. If the clock is a nonzero
multiple of 100, every frame is decayed exactly once, after the marking: its
tracking byte is the old one shifted right once, or-ed with 128 for `fidx` and
with its old access bit for any other frame, and its access bit is 0; a frame
other than `fidx` is exactly `decay_frame` of what it was. If the clock is 0 or
not a multiple of 100, no tracking byte changes, `fidx` has access bit 128 and
every other access bit is unchanged. So all access bits are 0 afterwards
exactly when the clock is a nonzero multiple of 100. -/
theorem decay_trigger (lib : BackStore W) (mode : SWAP_MODE) (page_number clock_time : Nat)
    (ps : page_swap_t W) (h : Reachable lib ps) (hp : page_number < 2048)
    (hdone : (ps.page_table page_number).valid ≠ 0 ∨
      ((ps.page_table page_number).valid = 0 ∧ (eviction_write lib mode ps).1 = true ∧
        (fault_in_read lib mode page_number ps).1 = true)) :
    (clock_time ≠ 0 ∧ clock_time % 100 = 0 →
      ∀ f, f < 512 →
        ((page_swap lib mode page_number clock_time ps).2.frame_table f).access_tracking_byte =
          ((ps.frame_table f).access_tracking_byte >>> 1) |||
            (if f = ((page_swap lib mode page_number clock_time ps).2.page_table
                page_number).frame_table_idx then 128
             else (ps.frame_table f).access_bit) ∧
        ((page_swap lib mode page_number clock_time ps).2.frame_table f).access_bit = 0 ∧
        (f ≠ ((page_swap lib mode page_number clock_time ps).2.page_table
            page_number).frame_table_idx →
          (page_swap lib mode page_number clock_time ps).2.frame_table f =
            decay_frame (ps.frame_table f))) ∧
    (clock_time = 0 ∨ clock_time % 100 ≠ 0 →
      ∀ f,
        ((page_swap lib mode page_number clock_time ps).2.frame_table f).access_tracking_byte =
          (ps.frame_table f).access_tracking_byte ∧
        ((page_swap lib mode page_number clock_time ps).2.frame_table f).access_bit =
          (if f = ((page_swap lib mode page_number clock_time ps).2.page_table
              page_number).frame_table_idx then 128
           else (ps.frame_table f).access_bit)) ∧
    ((∀ f, f < 512 →
        ((page_swap lib mode page_number clock_time ps).2.frame_table f).access_bit = 0) ↔
      (clock_time ≠ 0 ∧ clock_time % 100 = 0)) := by
  obtain ⟨hlt, bound, hb, hbo, e⟩ :=
    completed_reference_frames lib mode page_number clock_time ps (Reachable.inv lib ps h) hp
      hdone
  generalize ((page_swap lib mode page_number clock_time ps).2.page_table
    page_number).frame_table_idx = fidx at hlt hbo e ⊢
  rw [e]
  have htick : clock_time ≠ 0 ∧ clock_time % 100 = 0 →
      ∀ f, f < 512 →
        (mark_and_decay clock_time fidx bound f).access_tracking_byte =
          ((ps.frame_table f).access_tracking_byte >>> 1) |||
            (if f = fidx then 128 else (ps.frame_table f).access_bit) ∧
        (mark_and_decay clock_time fidx bound f).access_bit = 0 ∧
        (f ≠ fidx → mark_and_decay clock_time fidx bound f = decay_frame (ps.frame_table f)) := by
    intro hc f hf
    rw [mark_and_decay_tick _ _ _ hc, access_update_apply, if_pos hf]
    by_cases hfi : f = fidx
    · subst hfi
      simp only [Function.update_same, decay_frame_byte, decay_frame_access_bit, if_true,
        (hb f).1]
      exact ⟨trivial, trivial, fun hne => absurd rfl hne⟩
    · simp only [Function.update_noteq hfi, decay_frame_byte, decay_frame_access_bit,
        if_neg hfi, (hb f).1, (hb f).2, hbo f hfi]
      exact ⟨trivial, trivial, fun _ => trivial⟩
  have hquiet : clock_time = 0 ∨ clock_time % 100 ≠ 0 →
      ∀ f, (mark_and_decay clock_time fidx bound f).access_tracking_byte =
          (ps.frame_table f).access_tracking_byte ∧
        (mark_and_decay clock_time fidx bound f).access_bit =
          (if f = fidx then 128 else (ps.frame_table f).access_bit) := by
    intro hc f
    rw [mark_and_decay_no_tick _ _ _ hc]
    by_cases hfi : f = fidx
    · subst hfi
      simp only [Function.update_same, if_true, (hb f).1]
      exact ⟨trivial, trivial⟩
    · simp only [Function.update_noteq hfi, if_neg hfi, (hb f).1, (hb f).2]
      exact ⟨trivial, trivial⟩
  refine ⟨htick, hquiet, ⟨fun hall => ?_, fun hc f hf => (htick hc f hf).2.1⟩⟩
  by_contra hc
  have hc2 : clock_time = 0 ∨ clock_time % 100 ≠ 0 := by
    by_cases h0 : clock_time = 0
    · exact Or.inl h0
    · exact Or.inr (fun h1 => hc ⟨h0, h1⟩)
  have k := (hquiet hc2 fidx).2
  rw [if_pos rfl, hall fidx hlt] at k
  exact absurd k (by decide)

/-- Witness of `decay_trigger`: the resident page 5 right after the
initialization. At clock 100 every access bit is 0 afterwards; at clock 1 the
frame of page 5 has access bit 128 and frame 9 keeps its tracking byte. -/
theorem decay_trigger_witness :
    (∀ f, f < 512 →
      ((approx_least_recently_used nullStore 5 100 bootState).2.frame_table f).access_bit = 0) ∧
    ((approx_least_recently_used nullStore 5 1 bootState).2.frame_table
      ((approx_least_recently_used nullStore 5 1 bootState).2.page_table 5).frame_table_idx
      ).access_bit = 128 ∧
    ((approx_least_recently_used nullStore 5 1 bootState).2.frame_table 9).access_tracking_byte =
      (bootState.frame_table 9).access_tracking_byte := by
  have aux : ∀ ps : page_swap_t Unit, Reachable nullStore ps →
      ps.page_table 5 = { frame_table_idx := 5, valid := 1 } →
      (∀ f, f < 512 →
        ((approx_least_recently_used nullStore 5 100 ps).2.frame_table f).access_bit = 0) ∧
      ((approx_least_recently_used nullStore 5 1 ps).2.frame_table
        ((approx_least_recently_used nullStore 5 1 ps).2.page_table 5).frame_table_idx
        ).access_bit = 128 ∧
      ((approx_least_recently_used nullStore 5 1 ps).2.frame_table 9).access_tracking_byte =
        (ps.frame_table 9).access_tracking_byte := by
    intro ps hr hpg
    have hv : (ps.page_table 5).valid ≠ 0 := by rw [hpg]; exact Nat.one_ne_zero
    have k100 := decay_trigger nullStore SWAP_MODE.ALRU 5 100 ps hr (by norm_num) (Or.inl hv)
    have k1 := decay_trigger nullStore SWAP_MODE.ALRU 5 1 ps hr (by norm_num) (Or.inl hv)
    have q := k1.2.1 (Or.inr (by norm_num))
    unfold approx_least_recently_used
    refine ⟨k100.2.2.mpr ⟨by norm_num, by norm_num⟩, ?_, (q 9).1⟩
    rw [(q ((page_swap nullStore SWAP_MODE.ALRU 5 1 ps).2.page_table 5).frame_table_idx).2]
    exact if_pos rfl
  exact aux bootState bootState_reachable (bootState_frame 5 (by norm_num)).2.2.2

/-- C14 (touch monotonicity). After a completed reference (a hit, or a fault
whose write and read succeed) to an in-range page in a reachable state, at a
clock value that is a nonzero multiple of 100, the frame now bound to the page
has the bit 0x80 of its tracking byte set, its low seven bits equal to the
frame's previous tracking byte shifted right by one, and its access bit 0. -/
theorem touch_monotonicity (lib : BackStore W) (mode : SWAP_MODE) (page_number clock_time : Nat)
    (ps : page_swap_t W) (h : Reachable lib ps) (hp : page_number < 2048)
    (hdone : (ps.page_table page_number).valid ≠ 0 ∨
      ((ps.page_table page_number).valid = 0 ∧ (eviction_write lib mode ps).1 = true ∧
        (fault_in_read lib mode page_number ps).1 = true))
    (hc : clock_time ≠ 0 ∧ clock_time % 100 = 0) :
    ((page_swap lib mode page_number clock_time ps).2.frame_table
      ((page_swap lib mode page_number clock_time ps).2.page_table page_number).frame_table_idx
      ).access_tracking_byte &&& 128 = 128 ∧
    ((page_swap lib mode page_number clock_time ps).2.frame_table
      ((page_swap lib mode page_number clock_time ps).2.page_table page_number).frame_table_idx
      ).access_tracking_byte % 128 =
      (ps.frame_table
        ((page_swap lib mode page_number clock_time ps).2.page_table page_number).frame_table_idx
        ).access_tracking_byte >>> 1 ∧
    ((page_swap lib mode page_number clock_time ps).2.frame_table
      ((page_swap lib mode page_number clock_time ps).2.page_table page_number).frame_table_idx
      ).access_bit = 0 := by
  have hI := Reachable.inv lib ps h
  obtain ⟨hlt, bound, hb, _, e⟩ :=
    completed_reference_frames lib mode page_number clock_time ps hI hp hdone
  generalize ((page_swap lib mode page_number clock_time ps).2.page_table
    page_number).frame_table_idx = fidx at hlt e ⊢
  have hsh := shiftRight_one_lt _ (hI.byte_lt fidx hlt)
  rw [e, mark_and_decay_tick _ _ _ hc, access_update_apply, if_pos hlt]
  simp only [Function.update_same, decay_frame_byte, decay_frame_access_bit, (hb fidx).1]
  exact ⟨or_128_and _ hsh, or_128_mod _ hsh, trivial⟩

/-- Witness of `touch_monotonicity`: the resident page 5 right after the
initialization, referenced at clock 100. -/
theorem touch_monotonicity_witness :
    ((least_frequently_used nullStore 5 100 bootState).2.frame_table
      ((least_frequently_used nullStore 5 100 bootState).2.page_table 5).frame_table_idx
      ).access_tracking_byte &&& 128 = 128 ∧
    ((least_frequently_used nullStore 5 100 bootState).2.frame_table
      ((least_frequently_used nullStore 5 100 bootState).2.page_table 5).frame_table_idx
      ).access_bit = 0 := by
  have aux : ∀ ps : page_swap_t Unit, Reachable nullStore ps →
      ps.page_table 5 = { frame_table_idx := 5, valid := 1 } →
      ((least_frequently_used nullStore 5 100 ps).2.frame_table
        ((least_frequently_used nullStore 5 100 ps).2.page_table 5).frame_table_idx
        ).access_tracking_byte &&& 128 = 128 ∧
      ((least_frequently_used nullStore 5 100 ps).2.frame_table
        ((least_frequently_used nullStore 5 100 ps).2.page_table 5).frame_table_idx
        ).access_bit = 0 := by
    intro ps hr hpg
    have hv : (ps.page_table 5).valid ≠ 0 := by rw [hpg]; exact Nat.one_ne_zero
    have key := touch_monotonicity nullStore SWAP_MODE.LFU 5 100 ps hr (by norm_num)
      (Or.inl hv) ⟨by norm_num, by norm_num⟩
    exact ⟨key.1, key.2.2⟩
  exact aux bootState bootState_reachable (bootState_frame 5 (by norm_num)).2.2.2

/-- C15 (`bit_count` is the population count). For every byte value `v` the
loop of `bit_count` ends: after `set_bits v` steps of `value &= value - 1` the
value is 0, so every bound of at least `set_bits v` iterations gives the same
result, which is `set_bits v`, the number of 1 bits of `v`. The result is at
most 8, is 0 only for `v = 0` and 8 only for `v = 255`. -/
theorem bit_count_is_population_count (v : Nat) (hv : v < 256) :
    bit_count v = set_bits v ∧
    clear_lowest^[set_bits v] v = 0 ∧
    (∀ fuel, set_bits v ≤ fuel → bit_count_loop fuel v 0 = set_bits v) ∧
    bit_count v ≤ 8 ∧ (bit_count v = 0 ↔ v = 0) ∧ (bit_count v = 8 ↔ v = 255) := by
  obtain ⟨h1, h2, h3, h4, h5, h6, h7⟩ := byte_bit_count v hv
  refine ⟨h1, h3, fun fuel hfuel => ?_, by rw [h1]; exact h5, by rw [h1]; exact h6,
    by rw [h1]; exact h7⟩
  have e8 : bit_count_loop 8 v 0 = bit_count_loop (set_bits v) v 0 := by
    obtain ⟨k, hk⟩ := Nat.exists_eq_add_of_le h5
    rw [hk]
    exact bit_count_loop_more k (set_bits v) v 0 h3
  obtain ⟨k, hk⟩ := Nat.exists_eq_add_of_le hfuel
  rw [hk, bit_count_loop_more k (set_bits v) v 0 h3, ← e8, h2]

/-- Witness of `bit_count_is_population_count`: the byte 0xB5 has five bits set. -/
theorem bit_count_is_population_count_witness :
    bit_count 181 = set_bits 181 ∧ bit_count_loop 5 181 0 = set_bits 181 ∧ set_bits 181 = 5 :=
  ⟨(bit_count_is_population_count 181 (by decide)).1,
    (bit_count_is_population_count 181 (by decide)).2.2.1 5 (by decide), by decide⟩

/-- C16 (full occupancy). In every reachable state every frame is owned by a
valid page that names it, so exactly 512 pages are valid. A reference that
returns a fault record evicts exactly one resident page: the page of the record
was valid and is invalid afterwards, every other page that was valid stays
valid, and 512 pages are valid afterwards. -/
theorem full_occupancy (lib : BackStore W) (ps : page_swap_t W) (h : Reachable lib ps) :
    (∀ f, f < 512 →
      (ps.page_table (ps.frame_table f).page_table_idx).valid ≠ 0 ∧
      (ps.page_table (ps.frame_table f).page_table_idx).frame_table_idx = f) ∧
    valid_count ps = 512 ∧
    (∀ (mode : SWAP_MODE) (page_number clock_time : Nat),
      valid_count (page_swap lib mode page_number clock_time ps).2 = 512) ∧
    (∀ (mode : SWAP_MODE) (page_number clock_time : Nat) (res : page_request_result_t),
      (page_swap lib mode page_number clock_time ps).1 = some res →
        (ps.page_table res.page_replaced).valid ≠ 0 ∧
        ((page_swap lib mode page_number clock_time ps).2.page_table res.page_replaced).valid
          = 0 ∧
        (∀ q, q ≠ res.page_replaced → (ps.page_table q).valid ≠ 0 →
          ((page_swap lib mode page_number clock_time ps).2.page_table q).valid ≠ 0)) := by
  have hI := Reachable.inv lib ps h
  refine ⟨fun f hf => (hI.frame_page f hf).2, hI.valid_count_eq,
    fun mode page_number clock_time =>
      (hI.page_swap lib mode page_number clock_time ps).valid_count_eq,
    fun mode page_number clock_time res hres => ?_⟩
  obtain ⟨hp, hv, hw, hr⟩ := page_swap_some lib mode page_number clock_time ps res hres
  have hlt := choose_victim_frame_lt mode ps.frame_table
  obtain ⟨_, hqv, _⟩ := hI.frame_page _ hlt
  rw [page_swap_fault lib mode page_number clock_time ps hp hv hw hr] at hres ⊢
  simp only [Option.some.injEq] at hres
  subst hres
  refine ⟨hqv, ?_, fun q hq hqvalid => ?_⟩
  · simp only [Function.update_apply, if_true]
  · simp only at hq
    simp only [Function.update_apply, if_neg hq]
    by_cases hqp : q = page_number
    · simp [hqp]
    · simpa [if_neg hqp] using hqvalid

/-- Witness of `full_occupancy`: the state after the initialization on
`nullStore` and a fault on page 600. -/
theorem full_occupancy_witness :
    valid_count (approx_least_recently_used nullStore 600 1 bootState).2 = 512 :=
  (full_occupancy nullStore _ (Reachable.alru 600 1 bootState bootState_reachable)).2.1

/-- C17 (history shifts out). For a frame whose access bit is clear, `k`
decay steps in a row leave its tracking byte equal to the initial one shifted
right by `k`: the value never grows, and a byte is 0 after 8 steps. For a frame
whose access bit is set, after `k + 1` decay steps the tracking byte is the
initial one shifted right by `k + 1` or-ed with `128 >> k`: the touch
contributes 0x80, 0x40, .., 0x01 and then 0. -/
theorem history_shifts_out (entries : frame_table_t) (f : Nat) (hf : f < 512) (k : Nat) :
    ((entries f).access_bit = 0 →
      ((access_update^[k] entries) f).access_tracking_byte =
        (entries f).access_tracking_byte >>> k ∧
      ((access_update^[k + 1] entries) f).access_tracking_byte ≤
        ((access_update^[k] entries) f).access_tracking_byte ∧
      ((entries f).access_tracking_byte < 256 → 8 ≤ k →
        ((access_update^[k] entries) f).access_tracking_byte = 0)) ∧
    ((entries f).access_bit = 128 →
      ((access_update^[k + 1] entries) f).access_tracking_byte =
        ((entries f).access_tracking_byte >>> (k + 1)) ||| (128 >>> k)) ∧
    (List.range 9).map (fun j => 128 >>> j) = [128, 64, 32, 16, 8, 4, 2, 1, 0] := by
  refine ⟨fun h0 => ?_, fun h1 => touched_decay entries f hf h1 k, by decide⟩
  have e := fun j => (untouched_decay entries f hf h0 j).1
  refine ⟨e k, ?_, fun hb hk => ?_⟩
  · rw [e (k + 1), e k, Nat.shiftRight_succ]
    exact Nat.div_le_self _ _
  · rw [e k]
    exact shiftRight_byte_zero _ _ hb hk

/-- Witness of `history_shifts_out`: frame 3 of `skewTable` (tracking byte 127,
access bit clear) after three decay steps. -/
theorem history_shifts_out_witness :
    ((access_update^[3] skewTable) 3).access_tracking_byte = 15 := by
  have key := (history_shifts_out skewTable 3 (by norm_num) 3).1 rfl
  rw [key.1]
  decide

/-- C18 (table indexing stays in bounds). Both selectors return an index below
512 for every frame table. In every reachable state every page below 2048,
valid or not, has a frame index below 512, and every frame has an owner below
2048; hence the victim's owner passes the page-range check of the eviction
write, which is then exactly the library's write of block `owner + 8`. -/
theorem indexing_in_bounds (lib : BackStore W) :
    (∀ entries : frame_table_t,
      choose_alru_victim_frame entries < MAX_PHYSICAL_MEMORY_SIZE ∧
      choose_lfu_victim_frame entries < MAX_PHYSICAL_MEMORY_SIZE) ∧
    (∀ ps : page_swap_t W, Reachable lib ps →
      (∀ p, p < MAX_PAGE_TABLE_ENTRIES_SIZE →
        (ps.page_table p).frame_table_idx < MAX_PHYSICAL_MEMORY_SIZE) ∧
      (∀ f, f < MAX_PHYSICAL_MEMORY_SIZE →
        (ps.frame_table f).page_table_idx < MAX_PAGE_TABLE_ENTRIES_SIZE) ∧
      (∀ mode : SWAP_MODE,
        choose_victim_frame mode ps.frame_table < MAX_PHYSICAL_MEMORY_SIZE ∧
        (ps.frame_table (choose_victim_frame mode ps.frame_table)).page_table_idx <
          MAX_PAGE_TABLE_ENTRIES_SIZE ∧
        eviction_write lib mode ps =
          lib.back_store_write ps.bs
            ((ps.frame_table (choose_victim_frame mode ps.frame_table)).page_table_idx + 8)
            (ps.frame_table (choose_victim_frame mode ps.frame_table)).data)) := by
  refine ⟨fun entries => ⟨choose_victim_frame_lt SWAP_MODE.ALRU entries,
    choose_victim_frame_lt SWAP_MODE.LFU entries⟩, fun ps h => ?_⟩
  have hI := Reachable.inv lib ps h
  refine ⟨fun p hp => hI.idx_lt p (by simpa using hp),
    fun f hf => (hI.frame_page f (by simpa using hf)).1, fun mode => ?_⟩
  have hlt := choose_victim_frame_lt mode ps.frame_table
  have hq := (hI.frame_page _ hlt).1
  refine ⟨hlt, by simpa using hq, ?_⟩
  unfold eviction_write write_to_back_store
  rw [if_pos (by simpa using hq)]
  rfl

/-- Witness of `indexing_in_bounds`: the state after the initialization on
`nullStore` and a fault on page 600. -/
theorem indexing_in_bounds_witness :
    ∀ p, p < 2048 →
      ((approx_least_recently_used nullStore 600 1 bootState).2.page_table p).frame_table_idx
        < 512 :=
  ((indexing_in_bounds nullStore).2 _
    (Reachable.alru 600 1 bootState bootState_reachable)).1

/-- C19 (exact behaviour of the victim scan). Under either policy the selector
is the loop `victim_scan` over the scores of the frames, started with counter
1, pointer 0, the score of frame 0 as minimum and victim 0: iteration `i`
tests the score of frame `i - 1` and records `i`. Hence it returns 0 when the
score of frame 0 is at most the score of every frame `0 .. 510`; otherwise it
returns `j + 1` for the lowest `j` in `0 .. 510` whose score is the minimum
over the frames `0 .. 510`. Frame 511 is never read: two frame tables whose
tracking bytes agree on the frames `0 .. 510` give the same victim. -/
theorem victim_scan_exact (mode : SWAP_MODE) (entries : frame_table_t) :
    choose_victim_frame mode entries =
      victim_scan (fun j => score mode (entries j)) 511 1 0 (score mode (entries 0)) 0 ∧
    ((∀ j, j < 511 → score mode (entries 0) ≤ score mode (entries j)) →
      choose_victim_frame mode entries = 0) ∧
    (∀ j, j < 511 → score mode (entries j) < score mode (entries 0) →
      (∀ k, k < 511 → score mode (entries j) ≤ score mode (entries k)) →
      (∀ k, k < j → score mode (entries j) < score mode (entries k)) →
      choose_victim_frame mode entries = j + 1) ∧
    (¬ (∀ j, j < 511 → score mode (entries 0) ≤ score mode (entries j)) →
      ∃ j, j < 511 ∧
        (∀ k, k < 511 → score mode (entries j) ≤ score mode (entries k)) ∧
        (∀ k, k < j → score mode (entries j) < score mode (entries k)) ∧
        choose_victim_frame mode entries = j + 1) ∧
    (∀ other : frame_table_t,
      (∀ j, j < 511 → (other j).access_tracking_byte = (entries j).access_tracking_byte) →
      choose_victim_frame mode other = choose_victim_frame mode entries) := by
  have hfirst : ∀ j, j < 511 → score mode (entries j) < score mode (entries 0) →
      (∀ k, k < 511 → score mode (entries j) ≤ score mode (entries k)) →
      (∀ k, k < j → score mode (entries j) < score mode (entries k)) →
      choose_victim_frame mode entries = j + 1 := by
    intro j hj hlt hmin hlow
    rw [choose_victim_frame_eq]
    exact victim_scan_first_min (fun j => score mode (entries j)) 511 0 _ 0 j (Nat.zero_le j)
      (by omega) hlt (fun k _ hk => hmin k (by omega)) (fun k _ hk => hlow k hk)
  refine ⟨choose_victim_frame_eq mode entries, fun h => ?_, hfirst, fun hnot => ?_,
    fun other hsame => ?_⟩
  · rw [choose_victim_frame_eq]
    exact victim_scan_keep _ _ _ _ _ _ (fun k _ hk => h k (by omega))
  · obtain ⟨j, hj, hmin, hlow⟩ :=
      exists_first_min (fun j => score mode (entries j)) 511 (by norm_num)
    refine ⟨j, hj, hmin, hlow, hfirst j hj ?_ hmin hlow⟩
    by_contra hge
    apply hnot
    intro k hk
    have := hmin k hk
    simp only at this
    omega
  · rw [choose_victim_frame_eq, choose_victim_frame_eq]
    have hs : ∀ k, k < 511 → score mode (other k) = score mode (entries k) := by
      intro k hk
      cases mode <;> simp only [score, hsame k hk]
    rw [hs 0 (by norm_num)]
    exact victim_scan_congr _ _ _ _ _ _ _ (fun k _ hk => hs k (by omega))

/-- Witness of `victim_scan_exact`: on `skewTable` (255 in frame 0, 127
elsewhere) the lowest minimum over the frames `0 .. 510` is frame 1, and the
approximate-LRU selector returns 2. -/
theorem victim_scan_exact_witness : choose_victim_frame SWAP_MODE.ALRU skewTable = 1 + 1 := by
  refine (victim_scan_exact SWAP_MODE.ALRU skewTable).2.2.1 1 (by norm_num) (by decide) ?_ ?_
  · intro k _
    by_cases hk : k = 0
    · subst hk; decide
    · simp [score, skewTable, hk]
  · intro k hk
    have hk0 : k = 0 := by omega
    subst hk0
    decide

theorem low_bits_of_mod (a b i : Nat) (h : a % 128 = b % 128) (hi : i < 7) :
    a.testBit i = b.testBit i := by
  have e : (a % 2 ^ 7).testBit i = (b % 2 ^ 7).testBit i := by
    rw [show (2 : Nat) ^ 7 = 128 from rfl, h]
  rw [Nat.testBit_mod_two_pow, Nat.testBit_mod_two_pow, decide_eq_true hi, Bool.true_and,
    Bool.true_and] at e
  exact e

/-- C20 (access-bit encoding). In every reachable state every frame's access
bit is 0 or 128, so the decay step, which or-s it into the shifted tracking
byte, leaves the low seven bits of the new byte equal to those of the old byte
shifted right by one. -/
theorem access_bit_encoding (lib : BackStore W) (ps : page_swap_t W) (h : Reachable lib ps)
    (f : Nat) (hf : f < 512) :
    ((ps.frame_table f).access_bit = 0 ∨ (ps.frame_table f).access_bit = 128) ∧
    (access_update ps.frame_table f).access_tracking_byte % 128 =
      ((ps.frame_table f).access_tracking_byte >>> 1) % 128 ∧
    (∀ i, i < 7 →
      (access_update ps.frame_table f).access_tracking_byte.testBit i =
        ((ps.frame_table f).access_tracking_byte >>> 1).testBit i) := by
  have hI := Reachable.inv lib ps h
  have hbit := hI.bit_enc f hf
  have hsh := shiftRight_one_lt _ (hI.byte_lt f hf)
  have hmod : (access_update ps.frame_table f).access_tracking_byte % 128 =
      ((ps.frame_table f).access_tracking_byte >>> 1) % 128 := by
    rw [access_update_apply, if_pos hf, decay_frame_byte]
    rcases hbit with h0 | h1
    · rw [h0, Nat.or_zero]
    · rw [h1, or_128_mod _ hsh, Nat.mod_eq_of_lt hsh]
  exact ⟨hbit, hmod, fun i hi => low_bits_of_mod _ _ i hmod hi⟩

/-- Witness of `access_bit_encoding`: frame 3 after the initialization on
`nullStore` and a fault on page 600. -/
theorem access_bit_encoding_witness :
    ((approx_least_recently_used nullStore 600 1 bootState).2.frame_table 3).access_bit = 0 ∨
    ((approx_least_recently_used nullStore 600 1 bootState).2.frame_table 3).access_bit = 128 :=
  (access_bit_encoding nullStore _ (Reachable.alru 600 1 bootState bootState_reachable) 3
    (by norm_num)).1

end OSS16
